import Mathlib

/-!
Shallow embedding of `requests-openapi-client` (schemas.py, core.py, util.py)
and verification of the frozen claims about its specification.

Conventions:
* Python runtime values (both in-memory model values and wire JSON values)
  are modelled by the inductive type `Value`.  Python `None` and JSON `null`
  are both `Value.none`, exactly as in the source, which uses the single
  object `None` for both roles.
* Python type annotations used by the codec (`float`, `object`, `bool`,
  `list`, `str`, `datetime.datetime`, `typing.List[T]`, a `BaseDto`
  subclass, a `TaggedUnion` instance, `typing.Any`, and the `None` that
  `TYPE_EQUIVALENTS.get` can produce) are modelled by `PyType`.
* Fallible Python code (code that can raise) is embedded with
  `Except PyErr`.
* Python dicts are association lists with last-write-wins update
  (`dictUpdate`) and first-match lookup (`lookupStr`), which agree with
  dict semantics because an updated key is replaced in place.
-/

/-- Python exceptions raised (or, in one buggy spot, returned) by the code. -/
inductive PyErr where
  /-- a generic `Exception(msg)` -/
  | exception (msg : String)
  /-- `KeyError(key)` from an absent dict key -/
  | keyError (key : String)
  /-- `ValueError(msg)` -/
  | valueError (msg : String)
  /-- `NameError` from referencing an undefined variable -/
  | nameError (var : String)
  /-- `TypeError` from applying an operation to a value of the wrong type -/
  | typeError
  /-- `AttributeError` from accessing a missing attribute -/
  | attributeError
  /-- `requests.HTTPError` raised by `response.raise_for_status()` -/
  | httpError (status : Int)
  /-- Python `RecursionError` (unbounded `$ref` recursion) -/
  | recursionError
  deriving DecidableEq, Repr

mutual

/-- Python runtime values: model values, wire JSON values, and schema
    documents are all `Value`s, as in Python where they are all ordinary
    objects. -/
inductive Value where
  | none
  | bool (b : Bool)
  | num (n : Int)
  | str (s : String)
  /-- a `datetime.datetime` instant (abstract, see `isoformatZ`) -/
  | dt (t : Nat)
  | list (xs : List Value)
  | dict (kvs : List (String × Value))
  /-- an instance of a `BaseDto` dataclass: its runtime class and its
      field values, positionally aligned with the class's field list (a
      dataclass instance always carries exactly one value per declared
      field, in declaration order; `getattr(self, field_name)` is the value
      at that field's position) -/
  | record (cls : DtoClass) (vals : List Value)

/-- A Python type annotation as consumed by `serialize_as`/`deserialize_as`. -/
inductive PyType where
  /-- the `float` class (TYPE_EQUIVALENTS "number") -/
  | float
  /-- the `object` class (TYPE_EQUIVALENTS "object") -/
  | obj
  /-- the `bool` class (TYPE_EQUIVALENTS "boolean") -/
  | bool
  /-- the bare `list` class (array schema without items) -/
  | listBare
  /-- the `str` class (TYPE_EQUIVALENTS "string") -/
  | str
  /-- `datetime.datetime` -/
  | datetime
  /-- `typing.List[t]` -/
  | listOf (t : PyType)
  /-- a `BaseDto` subclass produced by the registry -/
  | dto (c : DtoClass)
  /-- a `TaggedUnion` instance -/
  | union (u : TaggedUnion)
  /-- `typing.Any` -/
  | any
  /-- the Python `None` that `TYPE_EQUIVALENTS.get(kw, None)` yields for an
      unknown type keyword -/
  | noneT
  /-- an `Exception` object stored in a type position (the buggy
      `return Exception(...)` in `type_for_schema` makes this reachable) -/
  | excObj (msg : String)

/-- A dataclass produced by `dataclasses.make_dataclass(..., bases=(BaseDto,))`
    together with the class attributes the registry sets on it.  Field entries
    are `(field_name, field.type, field.default)`; `make_dataclass` is always
    called with `default=prop_schema.get("default", None)`, so the default is
    always present (possibly `None`) and `default_factory` is never set (the
    `callable(field.default_factory)` branch of `deserialize` is dead for
    registry-built classes and is not modelled). -/
inductive DtoClass where
  | mk (name : String)
       (fields : List (String × PyType × Value))
       (name_map : List (String × String))
       (required_fields : List String)
       (nullable_fields : List String)

/-- A `TaggedUnion` as built by its `__init__`: the discriminator property
    name and the tag-to-type `discriminator_mapping`. -/
inductive TaggedUnion where
  | mk (discriminator_field : String)
       (discriminator_mapping : List (String × PyType))

end

namespace DtoClass

def name : DtoClass → String
  | .mk n _ _ _ _ => n

def fields : DtoClass → List (String × PyType × Value)
  | .mk _ f _ _ _ => f

def name_map : DtoClass → List (String × String)
  | .mk _ _ m _ _ => m

def required_fields : DtoClass → List String
  | .mk _ _ _ r _ => r

def nullable_fields : DtoClass → List String
  | .mk _ _ _ _ nl => nl

end DtoClass

namespace TaggedUnion

def discriminator_field : TaggedUnion → String
  | .mk f _ => f

def discriminator_mapping : TaggedUnion → List (String × PyType)
  | .mk _ m => m

/-- `allowed_types` property: the values of the discriminator mapping. -/
def allowed_types (u : TaggedUnion) : List PyType :=
  u.discriminator_mapping.map Prod.snd

end TaggedUnion

/-- First-match association-list lookup (Python dict read). -/
def lookupStr {α : Type} (kvs : List (String × α)) (k : String) : Option α :=
  match kvs with
  | [] => Option.none
  | (k', v) :: rest => if k' = k then some v else lookupStr rest k

/-- Python dict write `d[k] = v`: replace the existing entry in place, or
    append a new one. -/
def dictUpdate (kvs : List (String × Value)) (k : String) (v : Value) :
    List (String × Value) :=
  match kvs with
  | [] => [(k, v)]
  | (k', v') :: rest =>
      if k' = k then (k, v) :: rest else (k', v') :: dictUpdate rest k v

/-- Python truthiness of a modelled value (`bool(v)`).  Datetimes, records
    and nonempty containers are truthy. -/
def pyTruthy : Value → Bool
  | .none => false
  | .bool b => b
  | .num n => n != 0
  | .str s => s != ""
  | .dt _ => true
  | .list xs => !xs.isEmpty
  | .dict kvs => !kvs.isEmpty
  | .record _ _ => true

/-! ## Structural equality

Python compares registry classes, type objects and wire values with `==`
(identity for classes, structural for plain data).  The mutual family below
is a Boolean structural equality used wherever the source performs such a
comparison (`in` on `allowed_types`, dict-key lookup in `types_by_ref`). -/

mutual

def beqV (a b : Value) : Bool :=
  match a, b with
  | .none, .none => true
  | .bool a, .bool b => a == b
  | .num a, .num b => a == b
  | .str a, .str b => a == b
  | .dt a, .dt b => a == b
  | .list xs, .list ys => beqVList xs ys
  | .dict xs, .dict ys => beqKVList xs ys
  | .record c v, .record c' v' => beqC c c' && beqVList v v'
  | _, _ => false
termination_by structural a

def beqVList (a b : List Value) : Bool :=
  match a, b with
  | [], [] => true
  | x :: xs, y :: ys => beqV x y && beqVList xs ys
  | _, _ => false
termination_by structural a

def beqKVList (a b : List (String × Value)) : Bool :=
  match a, b with
  | [], [] => true
  | (k, v) :: xs, (k', v') :: ys => k == k' && beqV v v' && beqKVList xs ys
  | _, _ => false
termination_by structural a

def beqT (a b : PyType) : Bool :=
  match a, b with
  | .float, .float => true
  | .obj, .obj => true
  | .bool, .bool => true
  | .listBare, .listBare => true
  | .str, .str => true
  | .datetime, .datetime => true
  | .listOf a, .listOf b => beqT a b
  | .dto c, .dto c' => beqC c c'
  | .union u, .union u' => beqU u u'
  | .any, .any => true
  | .noneT, .noneT => true
  | .excObj m, .excObj m' => m == m'
  | _, _ => false
termination_by structural a

def beqC (a b : DtoClass) : Bool :=
  match a, b with
  | .mk n f m r nl, .mk n' f' m' r' nl' =>
      n == n' && beqFieldList f f' && m == m' && r == r' && nl == nl'
termination_by structural a

def beqFieldList (a b : List (String × PyType × Value)) : Bool :=
  match a, b with
  | [], [] => true
  | (n, t, d) :: xs, (n', t', d') :: ys =>
      n == n' && beqT t t' && beqV d d' && beqFieldList xs ys
  | _, _ => false
termination_by structural a

def beqU (a b : TaggedUnion) : Bool :=
  match a, b with
  | .mk f m, .mk f' m' => f == f' && beqTMap m m'
termination_by structural a

def beqTMap (a b : List (String × PyType)) : Bool :=
  match a, b with
  | [], [] => true
  | (k, t) :: xs, (k', t') :: ys => k == k' && beqT t t' && beqTMap xs ys
  | _, _ => false
termination_by structural a

end

/-! ## Size lemmas used for termination -/

theorem sizeOf_lookupStr {α : Type} [SizeOf α] {l : List (String × α)} {k : String}
    {v : α} (h : lookupStr l k = some v) : sizeOf v < sizeOf l := by
  induction l with
  | nil => simp [lookupStr] at h
  | cons hd tl ih =>
    obtain ⟨k', v'⟩ := hd
    simp only [lookupStr] at h
    by_cases hk : k' = k
    · simp [hk] at h
      subst h
      simp
      omega
    · simp [hk] at h
      have := ih h
      simp
      omega

/-! ## External datetime codec -/

/-- Modelled from the spec: the composite of the external calls
    `data.isoformat().replace("+00:00", "Z")` (datetime serialization, spec
    §4.4: "serialize emits ISO-8601 with UTC rendered using the `Z` suffix").
    The codec lives in the Python standard library / dateutil, outside this
    repository, so instants are abstract (`Nat`) and the wire encoding is an
    abstract injective string encoding. -/
def isoformatZ (t : Nat) : String :=
  String.mk (List.replicate t 'D')

/-- Modelled from the spec: `dateutil.parser.parse` (spec §4.4: "deserialize
    parses an ISO-8601 string into a temporal value"); left inverse of
    `isoformatZ` on its image, a parse error elsewhere. -/
def dateutilParse (s : String) : Except PyErr Value :=
  if s.data.all (fun c => c == 'D') then .ok (.dt s.data.length)
  else .error (.valueError "unknown string format")

theorem dateutilParse_isoformatZ (t : Nat) :
    dateutilParse (isoformatZ t) = .ok (.dt t) := by
  simp [dateutilParse, isoformatZ, List.all_eq_true, List.eq_of_mem_replicate]

/-! ## The codec: `serialize_as` and `BaseDto.serialize`

`dtoSerializeFields nm req nul usePy fl vals out` is the loop of
`BaseDto.serialize` (schemas.py lines 24-34): `fl` is the remaining
`__dataclass_fields__` items of the value's runtime class, `vals` the
corresponding instance field values (`getattr(self, field_name)` yields the
value at the field's position), and `out` the dict accumulated so far.
`nm`, `req`, `nul` are the class attributes `name_map`, `required_fields`,
`nullable_fields`; `usePy` is the `use_python_names` flag. -/

mutual

/-- `serialize_as(data, data_type, use_python_names)` (schemas.py 66-80).
    The `elif` chain in order: `None` passthrough; `BaseDto` subclass type
    with a `BaseDto` instance; `TaggedUnion` type whose `allowed_types`
    contains the value's runtime class; `typing.List[T]` type with a `list`
    value; `datetime` type with a `datetime` value; everything else is
    returned unchanged. -/
def serialize_as (data : Value) (ty : PyType) (usePy : Bool) : Except PyErr Value :=
  match data, ty with
  | .none, _ => .ok .none
  | .record c vals, .dto _ =>
      -- data.serialize(use_python_names): dispatches on the runtime class c
      match dtoSerializeFields c.name_map c.required_fields c.nullable_fields
          usePy c.fields vals [] with
      | .ok out => .ok (.dict out)
      | .error e => .error e
  | .record c vals, .union u =>
      if (u.allowed_types).any (fun t => beqT t (.dto c)) then
        match dtoSerializeFields c.name_map c.required_fields c.nullable_fields
            usePy c.fields vals [] with
        | .ok out => .ok (.dict out)
        | .error e => .error e
      else
        -- `type(data) in data_type.allowed_types` is false: no later branch
        -- of the elif chain can match, the value is passed through
        .ok (.record c vals)
  | .list xs, .listOf t =>
      match serializeItems xs t usePy with
      | .ok ys => .ok (.list ys)
      | .error e => .error e
  | .dt n, .datetime =>
      -- prefer Z instead of "+00:00" for UTC (schemas.py 77-79)
      .ok (.str (isoformatZ n))
  | d, _ => .ok d
termination_by structural data

/-- The field loop of `BaseDto.serialize` (schemas.py 25-34), walking the
    class's field list and the instance's values in lockstep. -/
def dtoSerializeFields (nm : List (String × String)) (req nul : List String)
    (usePy : Bool) (fl : List (String × PyType × Value)) (vals : List Value)
    (out : List (String × Value)) : Except PyErr (List (String × Value)) :=
  match fl, vals with
  | [], _ => .ok out
  | _ :: _, [] =>
      -- getattr(self, field_name) on a dataclass instance always succeeds;
      -- an instance model with too few values is an AttributeError
      .error .attributeError
  | (fname, fty, _) :: fl', v :: vals' =>
      match v with
      | .none =>
          if req.contains fname || nul.contains fname then
            -- None on a required or nullable field is emitted as null
            match (if usePy then some fname else lookupStr nm fname) with
            | Option.none => .error (.keyError fname)
            | some raw =>
                match serialize_as Value.none fty usePy with
                | .ok sv =>
                    dtoSerializeFields nm req nul usePy fl' vals'
                      (dictUpdate out raw sv)
                | .error e => .error e
          else
            -- not nullable and not required: None means "don't set"
            dtoSerializeFields nm req nul usePy fl' vals' out
      | v =>
          match (if usePy then some fname else lookupStr nm fname) with
          | Option.none => .error (.keyError fname)
          | some raw =>
              match serialize_as v fty usePy with
              | .ok sv =>
                  dtoSerializeFields nm req nul usePy fl' vals'
                    (dictUpdate out raw sv)
              | .error e => .error e
termination_by structural vals

/-- Element-wise serialization of a `list` value against `typing.List[t]`
    (schemas.py 73-76). -/
def serializeItems (xs : List Value) (t : PyType) (usePy : Bool) :
    Except PyErr (List Value) :=
  match xs with
  | [] => .ok []
  | x :: rest =>
      match serialize_as x t usePy with
      | .ok y =>
          match serializeItems rest t usePy with
          | .ok ys => .ok (y :: ys)
          | .error e => .error e
      | .error e => .error e
termination_by structural xs

end

/-! ## The codec: `deserialize_as`, `BaseDto.deserialize`,
`TaggedUnion.deserialize` -/

theorem DtoClass.sizeOf_fields_lt (c : DtoClass) : sizeOf c.fields < sizeOf c := by
  obtain ⟨n, f, m, r, nl⟩ := c
  simp [DtoClass.fields] <;> omega

theorem TaggedUnion.sizeOf_mapping_lt (u : TaggedUnion) :
    sizeOf u.discriminator_mapping < sizeOf u := by
  obtain ⟨f, m⟩ := u
  simp [TaggedUnion.discriminator_mapping] <;> omega

mutual

/-- `deserialize_as(data, data_type)` (schemas.py 51-64).  The `elif` chain
    in order: `None` passthrough; a `BaseDto` subclass type (class-method
    dispatch on the declared type, whatever the data); a `TaggedUnion`
    type; `typing.List[T]` with a `list` value; `datetime` with a `str`
    value; everything else passes through unchanged. -/
def deserialize_as (data : Value) (ty : PyType) : Except PyErr Value :=
  match data, ty with
  | .none, _ => .ok .none
  | d, .dto c =>
      -- data_type.deserialize(data): builds cls(**init_fields)
      match dtoDeserializeFields c.name_map c.fields d with
      | .ok vals => .ok (.record c vals)
      | .error e => .error e
  | d, .union u => TaggedUnion.deserialize u d
  | .list xs, .listOf t =>
      match deserializeItems xs t with
      | .ok ys => .ok (.list ys)
      | .error e => .error e
  | .str s, .datetime => dateutilParse s
  | d, _ => .ok d
termination_by (sizeOf data, sizeOf ty, 2)
decreasing_by
  all_goals simp_wf
  all_goals try have h9 := DtoClass.sizeOf_fields_lt c
  all_goals try have h8 := TaggedUnion.sizeOf_mapping_lt u
  all_goals
    first
    | (apply Prod.Lex.left; omega)
    | (apply Prod.Lex.right
       apply Prod.Lex.left
       omega)
    | (apply Prod.Lex.right
       apply Prod.Lex.right
       omega)

/-- The field loop of `BaseDto.deserialize` (schemas.py 38-49): for each
    declared field, look up its wire name (`cls.name_map[field_name]`,
    `KeyError` when absent), then take `data[raw_name]` when present
    (`raw_name in data` follows Python `in` semantics per type of `data`),
    else the field's default (`field.default` when not `None`, else `None`;
    `default_factory` is never set by the registry, and both remaining
    branches produce exactly `field.default`).  Returns the `init_fields`
    values in declaration order, as consumed by `cls(**init_fields)`. -/
def dtoDeserializeFields (nm : List (String × String))
    (fl : List (String × PyType × Value)) (data : Value) :
    Except PyErr (List Value) :=
  match fl with
  | [] => .ok []
  | (fname, fty, dflt) :: fl' =>
      match lookupStr nm fname with
      | Option.none => .error (.keyError fname)
      | some raw =>
          match data with
          | .dict kvs =>
              match dtoFieldFromDict kvs raw fty with
              | .ok (some dv) =>
                  match dtoDeserializeFields nm fl' (.dict kvs) with
                  | .ok rest => .ok (dv :: rest)
                  | .error e => .error e
              | .ok Option.none =>
                  -- absent from the payload: `field.default` when it is not
                  -- None, else None -- in both cases exactly `dflt`
                  match dtoDeserializeFields nm fl' (.dict kvs) with
                  | .ok rest => .ok (dflt :: rest)
                  | .error e => .error e
              | .error e => .error e
          | .list xs =>
              -- `raw_name in data` on a list is a membership test; when it
              -- succeeds, `data[raw_name]` (a list indexed by a str) is a
              -- TypeError, otherwise the field falls back to its default
              if xs.any (fun x => beqV x (.str raw)) then .error .typeError
              else
                match dtoDeserializeFields nm fl' (.list xs) with
                | .ok rest => .ok (dflt :: rest)
                | .error e => .error e
          | .str s =>
              -- `raw_name in data` on a str is a substring test; on success
              -- `data[raw_name]` (a str indexed by a str) is a TypeError
              if decide (raw.data <:+: s.data) then .error .typeError
              else
                match dtoDeserializeFields nm fl' (.str s) with
                | .ok rest => .ok (dflt :: rest)
                | .error e => .error e
          | _ =>
              -- `raw_name in data` on any other value raises TypeError
              .error .typeError
termination_by (sizeOf data, sizeOf fl, 1)
decreasing_by
  all_goals simp_wf
  all_goals try have h9 := DtoClass.sizeOf_fields_lt c
  all_goals try have h8 := TaggedUnion.sizeOf_mapping_lt u
  all_goals
    first
    | (apply Prod.Lex.left; omega)
    | (apply Prod.Lex.right
       apply Prod.Lex.left
       omega)
    | (apply Prod.Lex.right
       apply Prod.Lex.right
       omega)

/-- Walk of a wire dict for one field: Python `raw_name in data` followed by
    `deserialize_as(data[raw_name], field.type)`; `Option.none` when the key
    is absent. -/
def dtoFieldFromDict (kvs : List (String × Value)) (raw : String) (fty : PyType) :
    Except PyErr (Option Value) :=
  match kvs with
  | [] => .ok Option.none
  | (k, v) :: rest =>
      if k = raw then
        match deserialize_as v fty with
        | .ok dv => .ok (some dv)
        | .error e => .error e
      else dtoFieldFromDict rest raw fty
termination_by (sizeOf kvs, sizeOf fty, 0)
decreasing_by
  all_goals simp_wf
  all_goals try have h9 := DtoClass.sizeOf_fields_lt c
  all_goals try have h8 := TaggedUnion.sizeOf_mapping_lt u
  all_goals
    first
    | (apply Prod.Lex.left; omega)
    | (apply Prod.Lex.right
       apply Prod.Lex.left
       omega)
    | (apply Prod.Lex.right
       apply Prod.Lex.right
       omega)

/-- `TaggedUnion.deserialize` (schemas.py 144-150): read the discriminator
    field with `data.get(field, None)` (an `AttributeError` when `data` is
    not a dict), reject falsy values as "field not found", then dispatch on
    the mapping and recurse with the member type. -/
def TaggedUnion.deserialize (u : TaggedUnion) (data : Value) : Except PyErr Value :=
  match data with
  | .dict kvs =>
      let tv := (lookupStr kvs u.discriminator_field).getD .none
      if pyTruthy tv then
        match tv with
        | .str tag => unionDispatch u.discriminator_mapping tag (.dict kvs)
        | _ =>
            -- a truthy non-string value is never a key of the (string keyed)
            -- mapping: `type_value not in self.discriminator_mapping`
            .error (.exception "discriminator value not in union")
      else
        .error (.exception "discriminator mapping field not found on union object")
  | _ => .error .attributeError
termination_by (sizeOf data, sizeOf u, 1)
decreasing_by
  all_goals simp_wf
  all_goals try have h9 := DtoClass.sizeOf_fields_lt c
  all_goals try have h8 := TaggedUnion.sizeOf_mapping_lt u
  all_goals
    first
    | (apply Prod.Lex.left; omega)
    | (apply Prod.Lex.right
       apply Prod.Lex.left
       omega)
    | (apply Prod.Lex.right
       apply Prod.Lex.right
       omega)

/-- The mapping lookup `type_value not in self.discriminator_mapping` /
    `self.discriminator_mapping[type_value]` fused into one first-match
    walk, followed by the recursive `deserialize_as(data, member)`. -/
def unionDispatch (entries : List (String × PyType)) (tag : String) (data : Value) :
    Except PyErr Value :=
  match entries with
  | [] => .error (.exception ("discriminator value " ++ tag ++ " not in union"))
  | (k, t) :: rest =>
      if k = tag then deserialize_as data t
      else unionDispatch rest tag data
termination_by (sizeOf data, sizeOf entries, 0)
decreasing_by
  all_goals simp_wf
  all_goals try have h9 := DtoClass.sizeOf_fields_lt c
  all_goals try have h8 := TaggedUnion.sizeOf_mapping_lt u
  all_goals
    first
    | (apply Prod.Lex.left; omega)
    | (apply Prod.Lex.right
       apply Prod.Lex.left
       omega)
    | (apply Prod.Lex.right
       apply Prod.Lex.right
       omega)

/-- Element-wise deserialization of a `list` value against `typing.List[t]`
    (schemas.py 58-61). -/
def deserializeItems (xs : List Value) (t : PyType) : Except PyErr (List Value) :=
  match xs with
  | [] => .ok []
  | x :: rest =>
      match deserialize_as x t with
      | .ok y =>
          match deserializeItems rest t with
          | .ok ys => .ok (y :: ys)
          | .error e => .error e
      | .error e => .error e
termination_by (sizeOf xs, sizeOf t, 0)
decreasing_by
  all_goals simp_wf
  all_goals try have h9 := DtoClass.sizeOf_fields_lt c
  all_goals try have h8 := TaggedUnion.sizeOf_mapping_lt u
  all_goals
    first
    | (apply Prod.Lex.left; omega)
    | (apply Prod.Lex.right
       apply Prod.Lex.left
       omega)
    | (apply Prod.Lex.right
       apply Prod.Lex.right
       omega)

end

/-! ## Python container primitives used by the schema walker -/

/-- Python `k in v` (`__contains__`): key test on dicts, membership on
    lists, substring test on strings, `TypeError` elsewhere. -/
def pyHasKey (v : Value) (k : String) : Except PyErr Bool :=
  match v with
  | .dict kvs => .ok (kvs.any (fun p => p.1 == k))
  | .list xs => .ok (xs.any (fun x => beqV x (.str k)))
  | .str s => .ok (decide (k.data <:+: s.data))
  | _ => .error .typeError

/-- Python `v[k]` with a string key: dict indexing (`KeyError` when absent),
    `TypeError` on any other receiver. -/
def pyGetItem (v : Value) (k : String) : Except PyErr Value :=
  match v with
  | .dict kvs =>
      match lookupStr kvs k with
      | some x => .ok x
      | Option.none => .error (.keyError k)
  | _ => .error .typeError

/-- Python `v.get(k, dflt)`: only dicts have `.get`; anything else is an
    `AttributeError`. -/
def pyGet (v : Value) (k : String) (dflt : Value) : Except PyErr Value :=
  match v with
  | .dict kvs => .ok ((lookupStr kvs k).getD dflt)
  | _ => .error .attributeError

/-! ## `util.camel_to_snake`

`camel_to_snake` (util.py 6-10) runs two regex substitutions, lowercases,
replaces hyphens and collapses underscore runs.  The substitutions are
modelled as explicit scans with the same leftmost, non-overlapping
semantics: a match of `(.)([A-Z][a-z]+)` consumes the preceding character,
the uppercase letter and the maximal lowercase run, and scanning resumes
after the run. -/

mutual

/-- `CAMEL_NAME_RE.sub(r'\x5c1_\x5c2', name)` for `(.)([A-Z][a-z]+)`. -/
def camelSub1 : List Char → List Char
  | [] => []
  | [c] => [c]
  | [c, d] => [c, d]
  | x :: y :: z :: rest =>
      if y.isUpper && z.isLower then x :: '_' :: y :: z :: camelSub1Run rest
      else x :: camelSub1 (y :: z :: rest)
termination_by l => (l.length, 0)

/-- Consume the tail of the lowercase run of a `CAMEL_NAME_RE` match, then
    resume scanning. -/
def camelSub1Run : List Char → List Char
  | [] => []
  | c :: rest =>
      if c.isLower then c :: camelSub1Run rest
      else camelSub1 (c :: rest)
termination_by l => (l.length, 1)

end

/-- `CAMEL_RE.sub(r'\x5c1_\x5c2', name)` for `([a-z0-9])([A-Z])`. -/
def camelSub2 : List Char → List Char
  | [] => []
  | [c] => [c]
  | x :: y :: rest =>
      if (x.isLower || x.isDigit) && y.isUpper then x :: '_' :: y :: camelSub2 rest
      else x :: camelSub2 (y :: rest)

theorem length_dropWhile_le {α : Type} (p : α → Bool) (l : List α) :
    (l.dropWhile p).length ≤ l.length := by
  induction l with
  | nil => simp [List.dropWhile]
  | cons a l ih =>
    rw [List.dropWhile]
    by_cases h : p a <;> simp [h] <;> omega

/-- `MULTI_UNDER_RE.sub('_', name)`: collapse each run of two or more
    underscores to one. -/
def collapseUnders : List Char → List Char
  | [] => []
  | '_' :: rest => '_' :: collapseUnders (rest.dropWhile (fun c => c == '_'))
  | c :: rest => c :: collapseUnders rest
termination_by l => l.length
decreasing_by
  all_goals simp_wf
  all_goals try have := length_dropWhile_le (fun c => c == '_') rest
  all_goals omega

/-- `camel_to_snake(name)` (util.py 6-10). -/
def camelToSnake (name : String) : String :=
  let l1 := name.data.map (fun c => if c = ' ' then '_' else c)
  let l2 := camelSub1 l1
  let l3 := camelSub2 l2
  let l4 := l3.map Char.toLower
  let l5 := l4.map (fun c => if c = '-' then '_' else c)
  String.mk (collapseUnders l5)

/-! ## `type_for_schema` -/

/-- `format_schema_name(name)` (schemas.py 163-165):
    `(name[0].capitalize() + name[1:]).replace("-", "").replace(" ", "")`.
    (On an empty name, `name[0]` would be an IndexError; schema names in a
    document are never empty.) -/
def format_schema_name (name : String) : String :=
  match name.data with
  | [] => ""
  | c :: rest => String.mk ((c.toUpper :: rest).filter (fun ch => ch != '-' && ch != ' '))

/-- Modelled from the spec: `jsonpointer.resolve_pointer` (an external
    library; spec §4.1: "dereference the pointer within the document").
    Walks `/`-separated tokens, with the standard `~1`/`~0` unescaping,
    through dicts and (by numeric index) lists. -/
def jsonPointerWalk : List String → Value → Except PyErr Value
  | [], v => .ok v
  | tok :: rest, v =>
      let tok := ((tok.replace "~1" "/").replace "~0" "~")
      match v with
      | .dict kvs =>
          match lookupStr kvs tok with
          | some x => jsonPointerWalk rest x
          | Option.none => .error (.exception ("pointer member not found " ++ tok))
      | .list xs =>
          match tok.toNat? with
          | some i =>
              match xs[i]? with
              | some x => jsonPointerWalk rest x
              | Option.none => .error (.exception ("pointer index out of range " ++ tok))
          | Option.none => .error (.exception ("invalid pointer index " ++ tok))
      | _ => .error (.exception "pointer into a non-container")

/-- Modelled from the spec: `jsonpointer.resolve_pointer(doc, ptr)` where
    `ptr` is the `$ref` without its leading `#`. -/
def jsonPointerResolve (doc : Value) (ptr : String) : Except PyErr Value :=
  if ptr = "" then .ok doc
  else jsonPointerWalk ((ptr.splitOn "/").drop 1) doc

/-- What `type_for_schema` hands back to its caller: either a type object,
    or -- through the missing `raise` on schemas.py line 106 -- an
    `Exception` instance returned as an ordinary value. -/
inductive TfsRet where
  | ty (t : PyType)
  | exc (msg : String)

/-- A returned `TfsRet` stored into a type position (a union member slot,
    a `typing.List` item): the exception object simply becomes the stored
    "type". -/
def TfsRet.toPyType : TfsRet → PyType
  | .ty t => t
  | .exc m => .excObj m

/-- Python `v == "s"` for a string literal `s` (used by the `schema["type"]
    == "array"` and `format == "date-time"` comparisons). -/
def isStrLit (v : Value) (s : String) : Bool :=
  match v with
  | .str s' => s' == s
  | _ => false

/-- `TYPE_EQUIVALENTS.get(schema["type"], None)` (schemas.py 10-16, 120):
    the five-entry fixed table, `None` for any other key. -/
def typeEquivalents (v : Value) : PyType :=
  if beqV v (.str "number") then .float
  else if beqV v (.str "object") then .obj
  else if beqV v (.str "boolean") then .bool
  else if beqV v (.str "array") then .listBare
  else if beqV v (.str "string") then .str
  else .noneT

/-- Python-dict update on the `types_by_ref` comprehension: a later branch
    with the same `$ref` key overwrites the earlier entry in place. -/
def tbrUpdate (l : List (Value × PyType)) (k : Value) (t : PyType) :
    List (Value × PyType) :=
  match l with
  | [] => [(k, t)]
  | (k', t') :: rest =>
      if beqV k' k then (k, t) :: rest else (k', t') :: tbrUpdate rest k t

/-- Lookup in `types_by_ref` by the raw `$ref` value. -/
def tbrLookup (l : List (Value × PyType)) (k : Value) : Option PyType :=
  match l with
  | [] => Option.none
  | (k', t') :: rest => if beqV k' k then some t' else tbrLookup rest k

/-- The `types_by_ref` dict comprehension of `TaggedUnion.__init__`
    (schemas.py 133): each `oneOf` branch keyed by its raw `$ref` value
    (`None` when absent), mapped to its resolved type.  `tfs` is
    `type_for_schema` at the current recursion depth. -/
def typesByRefAux (tfs : Value → Except PyErr TfsRet) :
    List Value → List (Value × PyType) → Except PyErr (List (Value × PyType))
  | [], acc => .ok acc
  | opt :: rest, acc => do
      let key ← pyGet opt "$ref" .none
      let t ← tfs opt
      typesByRefAux tfs rest (tbrUpdate acc key t.toPyType)

/-- The `discriminator_mapping` comprehension of `TaggedUnion.__init__`
    (schemas.py 134): `{name: types_by_ref[ref] for name, ref in
    mapping.items()}`; a `ref` that is not a branch's `$ref` is a
    `KeyError`. -/
def mapDiscTags (tbr : List (Value × PyType)) :
    List (String × Value) → List (String × PyType) → Except PyErr (List (String × PyType))
  | [], acc => .ok acc
  | (tag, refv) :: rest, acc =>
      match tbrLookup tbr refv with
      | some t => mapDiscTags tbr rest (acc ++ [(tag, t)])
      | Option.none =>
          .error (.keyError (match refv with | .str s => s | _ => "unhashable"))

/-- `TaggedUnion.__init__` (schemas.py 126-134), called from the multi-branch
    `oneOf` arm of `type_for_schema`.  A falsy `propertyName` or `mapping`
    raises; the member types are resolved through `types_by_ref`.  (A truthy
    non-string `propertyName` or a non-dict `mapping` is outside what the
    registry data model can represent and is modelled as a `TypeError`.) -/
def buildTaggedUnion (tfs : Value → Except PyErr TfsRet) (branches : List Value)
    (disc : Value) : Except PyErr TfsRet := do
  let pn ← pyGet disc "propertyName" .none
  let mp ← pyGet disc "mapping" .none
  if !pyTruthy pn || !pyTruthy mp then
    .error (.exception "discriminator property name and mapping are required")
  else
    match pn, mp with
    | .str fieldName, .dict mkvs => do
        let tbr ← typesByRefAux tfs branches []
        let dm ← mapDiscTags tbr mkvs []
        .ok (.ty (.union (.mk fieldName dm)))
    | _, _ => .error .typeError

/-- The `$ref` arm of `type_for_schema` (schemas.py 83-90), applied to the
    value of the `$ref` key: only same-document (`#...`) refs are allowed; a
    pointer into `#/components/schemas/` that names an already-realized type
    returns it, any other pointer is dereferenced and resolved recursively
    (`recur`). -/
def tfsRefBranch (recur : Value → Except PyErr TfsRet) (full_spec : Value)
    (realized_types : List (String × PyType)) (r : Value) :
    Except PyErr TfsRet :=
  match r with
  | .str rs =>
      if !rs.startsWith "#" then
        .error (.exception "only '#' refs are supported")
      else
        let formatted := format_schema_name (((rs.splitOn "/").getLast?).getD "")
        match
          (if rs.startsWith "#/components/schemas/" then
            lookupStr realized_types formatted
          else Option.none) with
        | some t => .ok (.ty t)
        | Option.none => do
            let target ← jsonPointerResolve full_spec (rs.drop 1)
            recur target
  | _ =>
      -- a non-string `$ref` has no `.startswith`
      .error .attributeError

/-- The `allOf` arm of `type_for_schema` (schemas.py 92-98), applied to the
    value of the `allOf` key: a single branch is transparent, several
    degrade to `object` with a printed warning. -/
def tfsAllOfBranch (recur : Value → Except PyErr TfsRet) (ao : Value) :
    Except PyErr TfsRet :=
  match ao with
  | .list [one] => recur one
  | .list _ =>
      -- "warning: can't really support allOf", then `object`
      .ok (.ty .obj)
  | _ => .error .typeError

/-- The `oneOf` arm of `type_for_schema` (schemas.py 100-107), applied to
    the value of the `oneOf` key: a single branch is transparent; several
    require a truthy `discriminator` -- without one the constructed
    Exception is *returned* (the missing `raise` of schemas.py 106) -- and
    otherwise build a `TaggedUnion`. -/
def tfsOneOfBranch (recur : Value → Except PyErr TfsRet) (schema : Value)
    (oo : Value) : Except PyErr TfsRet :=
  match oo with
  | .list [one] => recur one
  | .list branches => do
      let disc ← pyGet schema "discriminator" .none
      if !pyTruthy disc then
        -- BUG preserved from schemas.py 106: the constructed Exception is
        -- *returned*, not raised
        .ok (.exc "oneOf clauses are only supported with accompanying discriminator attributes")
      else
        buildTaggedUnion recur branches disc
  | _ => .error .typeError

/-- The explicit-`type` arm of `type_for_schema` (schemas.py 109-120):
    require a `type` key; `array` maps to `typing.List[items]` (bare `list`
    without `items`); `string` with `format: date-time` maps to `datetime`;
    everything else goes through the `TYPE_EQUIVALENTS` table. -/
def tfsTypeBranch (recur : Value → Except PyErr TfsRet) (schema : Value) :
    Except PyErr TfsRet := do
  let hasType ← pyHasKey schema "type"
  if !hasType then .error (.exception "schemas must have types or refs")
  else do
    let tyv ← pyGetItem schema "type"
    if isStrLit tyv "array" then do
      let hasItems ← pyHasKey schema "items"
      if hasItems then do
        let items ← pyGetItem schema "items"
        let inner ← recur items
        .ok (.ty (.listOf inner.toPyType))
      else .ok (.ty .listBare)
    else do
      let fmt ← pyGet schema "format" .none
      if isStrLit tyv "string" && isStrLit fmt "date-time" then
        .ok (.ty .datetime)
      else
        .ok (.ty (typeEquivalents tyv))

/-- One evaluation step of `type_for_schema(schema, full_spec,
    realized_types)` (schemas.py 82-120), with the recursive occurrences
    abstracted as `recur` (tied by the fueled `type_for_schema` below) and
    the four arms factored into the branch functions above. -/
def typeForSchemaStep (recur : Value → Except PyErr TfsRet)
    (schema full_spec : Value) (realized_types : List (String × PyType)) :
    Except PyErr TfsRet := do
  let hasRef ← pyHasKey schema "$ref"
  if hasRef then do
    let r ← pyGetItem schema "$ref"
    tfsRefBranch recur full_spec realized_types r
  else do
    let hasAllOf ← pyHasKey schema "allOf"
    if hasAllOf then do
      let ao ← pyGetItem schema "allOf"
      tfsAllOfBranch recur ao
    else do
      let hasOneOf ← pyHasKey schema "oneOf"
      if hasOneOf then do
        let oo ← pyGetItem schema "oneOf"
        tfsOneOfBranch recur schema oo
      else
        tfsTypeBranch recur schema

/-- `type_for_schema(schema, full_spec, realized_types)` (schemas.py
    82-120), with explicit recursion fuel: Python has no guard against an
    unbounded `$ref` chain and overflows the stack on one; exhausted fuel is
    the corresponding `RecursionError`. -/
def type_for_schema : Nat → Value → Value → List (String × PyType) →
    Except PyErr TfsRet
  | 0, _, _, _ => .error .recursionError
  | Nat.succ fuel, schema, full_spec, realized_types =>
      typeForSchemaStep
        (fun v => type_for_schema fuel v full_spec realized_types)
        schema full_spec realized_types

/-- Reduction of `Except` bind on a success. -/
theorem bindOk {α β : Type} (a : α) (f : α → Except PyErr β) :
    (Except.ok a >>= f) = f a := rfl

/-- Reduction of `Except` bind on an error. -/
theorem bindErr {α β : Type} (e : PyErr) (f : α → Except PyErr β) :
    ((Except.error e : Except PyErr α) >>= f) = Except.error e := rfl

/-- Accumulate a nonempty all-digit run into a number. -/
def digitsVal (acc : Nat) : List Char → Option Nat
  | [] => some acc
  | c :: rest =>
      if c.isDigit then digitsVal (acc * 10 + (c.toNat - 48)) rest
      else Option.none

/-- Python `int(s)` for a string: strip spaces, optional sign, a nonempty
    digit run; anything else is a `ValueError` (signalled as `Option.none`
    here). -/
def pyIntParse (s : String) : Option Int :=
  let l := s.data.dropWhile (fun c => c = ' ')
  let l := (l.reverse.dropWhile (fun c => c = ' ')).reverse
  match l with
  | [] => Option.none
  | '-' :: rest =>
      match rest with
      | [] => Option.none
      | _ => (digitsVal 0 rest).map (fun n => -(n : Int))
  | '+' :: rest =>
      match rest with
      | [] => Option.none
      | _ => (digitsVal 0 rest).map (fun n => (n : Int))
  | l => (digitsVal 0 l).map (fun n => (n : Int))

/-! ## `core.py`: operations

`Parameter` (core.py 62-69).  The source stores the raw spec values for
`required`; it is only ever used in boolean position
(`param.in_ == PATH or param.required`), so its truthiness is stored. -/

structure Parameter where
  name : String
  raw_name : String
  type : PyType
  required : Bool
  in_ : String
  default : Value

/-- A key of `Operation._response_types`: `int(status)` for a numeric
    status, the verbatim string (always `"default"`) otherwise. -/
inductive RespKey where
  | int (n : Int)
  | str (s : String)
  deriving DecidableEq

/-- The slice of an `Operation` (core.py 71-137) that call execution uses:
    the classified parameter list and the per-status response-type map. -/
structure Operation where
  path : String
  method : String
  parameters : List Parameter
  response_types : List (RespKey × PyType)

/-- Update of the `_response_types` dict. -/
def respUpdate (l : List (RespKey × PyType)) (k : RespKey) (t : PyType) :
    List (RespKey × PyType) :=
  match l with
  | [] => [(k, t)]
  | (k', t') :: rest =>
      if k' = k then (k, t) :: rest else (k', t') :: respUpdate rest k t

/-- Lookup in `_response_types` (`response.status_code in self._response_types`
    / `self._response_types[...]`). -/
def respLookup (l : List (RespKey × PyType)) (k : RespKey) : Option PyType :=
  match l with
  | [] => Option.none
  | (k', t') :: rest => if k' = k then some t' else respLookup rest k

/-- The parameter loop of `Operation.__init__` (core.py 111-126): each
    declared parameter spec contributes one `Parameter` with the wire name
    kept verbatim, the local name snake-cased, the location copied, the
    `required` flag from the spec (default false) and the default pulled
    from the parameter's schema.  (A non-string `name` has no
    `.replace`/`.lower` inside `camel_to_snake`; a non-string `in` is not
    representable in the model's `Parameter` and both are modelled as the
    corresponding attribute/type errors.) -/
def buildParamList (fuel : Nat) (full_spec : Value)
    (available_types : List (String × PyType)) :
    List Value → Except PyErr (List Parameter)
  | [] => .ok []
  | pspec :: rest => do
      let schema ← pyGet pspec "schema" .none
      let pt ←
        if pyTruthy schema then do
          let t ← type_for_schema fuel schema full_spec available_types
          let d ← pyGet schema "default" .none
          pure (t.toPyType, d)
        else
          pure (PyType.any, Value.none)
      let rawv ← pyGetItem pspec "name"
      match rawv with
      | .str raw => do
          let inv ← pyGetItem pspec "in"
          match inv with
          | .str loc => do
              let reqv ← pyGet pspec "required" (.bool false)
              let tail ← buildParamList fuel full_spec available_types rest
              .ok ({ name := camelToSnake raw, raw_name := raw, type := pt.1,
                     required := pyTruthy reqv, in_ := loc,
                     default := pt.2 } :: tail)
          | _ => .error .typeError
      | _ => .error .attributeError

/-- The response loop of `Operation.__init__` (core.py 128-137): a response
    with a JSON content schema is recorded under `int(status)` (a parse
    failure is the `int()` ValueError) or under the literal `"default"`;
    responses without a JSON schema are omitted. -/
def buildResponseTypes (fuel : Nat) (full_spec : Value)
    (available_types : List (String × PyType)) :
    List (String × Value) → List (RespKey × PyType) →
    Except PyErr (List (RespKey × PyType))
  | [], acc => .ok acc
  | (status, response) :: rest, acc => do
      let content ← pyGet response "content" (.dict [])
      let appjson ← pyGet content "application/json" (.dict [])
      let schema ← pyGet appjson "schema" .none
      if pyTruthy schema then do
        let key ←
          if status ≠ "default" then
            match pyIntParse status with
            | some n => pure (RespKey.int n)
            | Option.none =>
                .error (.valueError "invalid literal for int() with base 10")
          else
            pure (RespKey.str status)
        let t ← type_for_schema fuel schema full_spec available_types
        buildResponseTypes fuel full_spec available_types rest
          (respUpdate acc key t.toPyType)
      else
        buildResponseTypes fuel full_spec available_types rest acc

/-- `Operation.__init__` (core.py 85-137): the optional request body becomes
    a body-located parameter named `body` typed from its JSON content schema
    (`typing.Any` when the schema is absent), then the declared parameters,
    then the response-type map. -/
def buildOperation (fuel : Nat) (path method : String) (op_spec full_spec : Value)
    (available_types : List (String × PyType)) : Except PyErr Operation := do
  let body ← pyGet op_spec "requestBody" .none
  let bodyParams ←
    if pyTruthy body then do
      let content ← pyGet body "content" (.dict [])
      let appjson ← pyGet content "application/json" (.dict [])
      let schema ← pyGet appjson "schema" .none
      let body_type ←
        if pyTruthy schema then do
          let t ← type_for_schema fuel schema full_spec available_types
          pure t.toPyType
        else
          pure PyType.any
      let reqv ← pyGet body "required" (.bool false)
      pure [{ name := "body", raw_name := "body", type := body_type,
              required := pyTruthy reqv, in_ := "requestBody",
              default := Value.none : Parameter }]
    else
      pure ([] : List Parameter)
  let pspecs ← pyGet op_spec "parameters" (.list [])
  let declared ←
    match pspecs with
    | .list items => buildParamList fuel full_spec available_types items
    | _ => .error .typeError
  let resps ← pyGet op_spec "responses" (.dict [])
  let response_types ←
    match resps with
    | .dict rkvs => buildResponseTypes fuel full_spec available_types rkvs []
    | _ => .error .attributeError
  .ok { path := path, method := method, parameters := bodyParams ++ declared,
        response_types := response_types }

/-! ## `core.py`: call execution (`Operation._gen_call`, core.py 163-231) -/

/-- The api-parameter buckets collected by the generated call. -/
structure CallBuckets where
  path_params : List (String × Value)
  params : List (String × Value)
  headers : List (String × Value)
  cookies : List (String × Value)
  body : Value

/-- `kwargs.pop(k)`: remove the entry for `k`. -/
def removeKey (kvs : List (String × Value)) (k : String) : List (String × Value) :=
  match kvs with
  | [] => []
  | (k', v) :: rest => if k' = k then rest else (k', v) :: removeKey rest k

/-- The parameter-collection loop (core.py 171-190).  A parameter the caller
    did not supply that is path-located or required hits
    `raise ValueError(f"POSGUARD is required")` -- but the f-string names the
    undefined variable `name` (the loop variable is `param`), so what is
    actually raised is `NameError: name 'name' is not defined`.  A supplied
    parameter is serialized against the parameter's type and filed into the
    bucket matching its location; locations other than the five known ones
    are dropped. -/
def collectApiParams :
    List Parameter → List (String × Value) → CallBuckets →
    Except PyErr (CallBuckets × List (String × Value))
  | [], kwargs, acc => .ok (acc, kwargs)
  | p :: rest, kwargs, acc =>
      match lookupStr kwargs p.name with
      | Option.none =>
          if p.in_ == "path" || p.required then
            -- BUG preserved from core.py 174: evaluating the f-string
            -- raises NameError("name 'name' is not defined")
            .error (.nameError "name")
          else
            collectApiParams rest kwargs acc
      | some v =>
          match serialize_as v p.type false with
          | .error e => .error e
          | .ok serialized =>
              let kwargs' := removeKey kwargs p.name
              let acc' :=
                if p.in_ == "path" then
                  { acc with path_params := dictUpdate acc.path_params p.raw_name serialized }
                else if p.in_ == "query" then
                  { acc with params := dictUpdate acc.params p.raw_name serialized }
                else if p.in_ == "header" then
                  { acc with headers := dictUpdate acc.headers p.raw_name serialized }
                else if p.in_ == "cookie" then
                  { acc with cookies := dictUpdate acc.cookies p.raw_name serialized }
                else if p.in_ == "requestBody" then
                  { acc with body := serialized }
                else acc
              collectApiParams rest kwargs' acc'

/-- The internal-parameter promotion loop (core.py 194-199): every leftover
    kwarg whose key starts with the `_` prefix is popped and re-filed under
    the key with the prefix stripped.  The loop runs over a snapshot of the
    keys (`list(kwargs.keys())`). -/
def promoteInternal : List String → List (String × Value) → List (String × Value)
  | [], kw => kw
  | k :: ks, kw =>
      if k.startsWith "_" then
        match lookupStr kw k with
        | some v => promoteInternal ks (dictUpdate (removeKey kw k) (k.drop 1) v)
        | Option.none => promoteInternal ks kw
      else promoteInternal ks kw

/-- `kwargs.setdefault(key, {}).update(pairs)` (core.py 200-202): merge the
    bucket into the caller-supplied dict under `key`, creating it when
    absent; `.update` on a caller-supplied non-dict value is an
    AttributeError. -/
def setdefaultUpdate (kw : List (String × Value)) (key : String)
    (pairs : List (String × Value)) : Except PyErr (List (String × Value)) :=
  match lookupStr kw key with
  | some (.dict d) =>
      .ok (dictUpdate kw key (.dict (pairs.foldl (fun acc p => dictUpdate acc p.1 p.2) d)))
  | some _ => .error .attributeError
  | Option.none =>
      .ok (dictUpdate kw key (.dict (pairs.foldl (fun acc p => dictUpdate acc p.1 p.2) [])))

/-- `kwargs.setdefault(k, v)` for each client-wide request option
    (core.py 205-206). -/
def applyReqOpts (kw : List (String × Value)) (req_opts : List (String × Value)) :
    List (String × Value) :=
  req_opts.foldl
    (fun acc p =>
      match lookupStr acc p.1 with
      | some _ => acc
      | Option.none => dictUpdate acc p.1 p.2)
    kw

/-- The request-option assembly of the generated call (core.py 193-206):
    promote `_`-prefixed kwargs, merge the query/header/cookie buckets,
    attach the body as the JSON payload only when it is truthy, then fill in
    client-wide defaults. -/
def buildRequestKwargs (bks : CallBuckets) (kwargs : List (String × Value))
    (req_opts : List (String × Value)) : Except PyErr (List (String × Value)) := do
  let kw := promoteInternal (kwargs.map Prod.fst) kwargs
  let kw ← setdefaultUpdate kw "params" bks.params
  let kw ← setdefaultUpdate kw "headers" bks.headers
  let kw ← setdefaultUpdate kw "cookies" bks.cookies
  let kw := if pyTruthy bks.body then dictUpdate kw "json" bks.body else kw
  .ok (applyReqOpts kw req_opts)

/-- A transport response as the generated call consumes it: status code,
    header map, and the outcome of `response.json()`. -/
structure HttpResponse where
  status_code : Int
  headers : List (String × String)
  jsonBody : Except PyErr Value

/-- `response.headers[k]`: requests exposes a case-insensitive header map
    (keys compare lowercased); a missing header is a `KeyError`. -/
def headerLookup (headers : List (String × String)) (k : String) : Option String :=
  match headers with
  | [] => Option.none
  | (k', v) :: rest =>
      if k'.data.map Char.toLower == k.data.map Char.toLower then some v
      else headerLookup rest k

/-- The response-decoding tail of the generated call (core.py 211-231):
    `raise_for_status` turns a 4xx/5xx outcome into an HTTPError (the
    except-clause only augments its message with the JSON body text); on
    success the body is parsed only when `int(response.headers
    ["Content-Length"])` is positive -- an absent header is a KeyError, a
    non-numeric value a ValueError -- and the result is deserialized against
    the exact status code's entry, else the `"default"` entry, else returned
    raw. -/
def decodeResponse (response_types : List (RespKey × PyType)) (r : HttpResponse) :
    Except PyErr Value := do
  if 400 ≤ r.status_code then
    .error (.httpError r.status_code)
  else do
    let cl ←
      match headerLookup r.headers "Content-Length" with
      | some s => pure s
      | Option.none => .error (.keyError "Content-Length")
    let n ←
      match pyIntParse cl with
      | some n => pure n
      | Option.none => .error (.valueError "invalid literal for int() with base 10")
    let data ← if n > 0 then r.jsonBody else pure Value.none
    match respLookup response_types (.int r.status_code) with
    | some t => deserialize_as data t
    | Option.none =>
        match respLookup response_types (.str "default") with
        | some t => deserialize_as data t
        | Option.none => .ok data

/-! ## `core.py`: client assembly (`BaseClient._collect_operations`,
core.py 346-387) -/

/-- Lookup in the `_operations` table, which Python keys by the raw
    `operationId` value. -/
def opsLookup (table : List (Value × Operation)) (k : Value) : Option Operation :=
  match table with
  | [] => Option.none
  | (k', op) :: rest => if beqV k' k then some op else opsLookup rest k

/-- The inner loop of `_collect_operations` over one path item's methods
    (core.py 351-387).  An operation spec without a truthy `operationId` is
    logged and skipped.  A fresh id is added to the table (the tag grouping
    and `add_client_method` attach generated wrappers to the client
    namespace and do not alter the table; they are not modelled).  A
    duplicate id reaches `v = self._operations[operation_id]` (core.py 372)
    -- but `self` is undefined inside this classmethod (the parameter is
    `cls`), so a NameError is raised instead of the intended merge into a
    list. -/
def collectOpsMethods (fuel : Nat) (full_spec : Value)
    (available_types : List (String × PyType)) (path : String) :
    List (String × Value) → List (Value × Operation) →
    Except PyErr (List (Value × Operation))
  | [], table => .ok table
  | (method, op_spec) :: rest, table => do
      let operation_id ← pyGet op_spec "operationId" .none
      if pyTruthy operation_id then do
        let op ← buildOperation fuel path method op_spec full_spec available_types
        match opsLookup table operation_id with
        | Option.none =>
            collectOpsMethods fuel full_spec available_types path rest
              (table ++ [(operation_id, op)])
        | some _ =>
            -- BUG preserved from core.py 372: `self` is not defined in the
            -- classmethod, so the duplicate-id branch raises
            -- NameError("name 'self' is not defined")
            .error (.nameError "self")
      else
        -- log.warning(f"operationId not found in ...") and continue
        collectOpsMethods fuel full_spec available_types path rest table

/-- `_collect_operations` over `cls.paths.items()` (core.py 350-387),
    producing the `_operations` table. -/
def collectOperations (fuel : Nat) (full_spec : Value)
    (available_types : List (String × PyType)) :
    List (String × Value) → List (Value × Operation) →
    Except PyErr (List (Value × Operation))
  | [], table => .ok table
  | (path, path_spec) :: rest, table => do
      let methods ←
        match path_spec with
        | .dict mkvs => .ok mkvs
        | _ => (.error .attributeError : Except PyErr (List (String × Value)))
      let table' ← collectOpsMethods fuel full_spec available_types path methods table
      collectOperations fuel full_spec available_types rest table'

/-! ## Association-list lemmas -/

theorem lookupStr_dictUpdate_self (d : List (String × Value)) (k : String) (v : Value) :
    lookupStr (dictUpdate d k v) k = some v := by
  induction d with
  | nil => simp [dictUpdate, lookupStr]
  | cons hd tl ih =>
    obtain ⟨k', v'⟩ := hd
    by_cases h : k' = k
    · simp [dictUpdate, h, lookupStr]
    · simp [dictUpdate, h, lookupStr, ih]

theorem lookupStr_dictUpdate_other (d : List (String × Value)) (k k' : String)
    (v : Value) (h : k' ≠ k) :
    lookupStr (dictUpdate d k' v) k = lookupStr d k := by
  induction d with
  | nil => simp [dictUpdate, lookupStr, h]
  | cons hd tl ih =>
    obtain ⟨k'', v''⟩ := hd
    by_cases h2 : k'' = k'
    · subst h2
      simp [dictUpdate, lookupStr, h]
    · simp only [dictUpdate, if_neg h2, lookupStr]
      by_cases h3 : k'' = k
      · simp [h3]
      · simp [h3, ih]

/-! ## Claim C3 -/

/-- C3: for a schema fragment with a two-branch `oneOf` and no
    `discriminator`, the claim says type resolution fails with a raised
    construction error that propagates to the caller.  The code instead
    *returns* the constructed `Exception` normally (schemas.py 106 reads
    `return Exception(...)`, not `raise`): at this failing input the result
    is `Except.ok` carrying the exception object, not an `Except.error`. -/
theorem C3_oneOf_without_discriminator_returns_exception :
    type_for_schema 1
      (.dict [("oneOf", .list [.dict [("type", .str "string")],
                               .dict [("type", .str "number")]])])
      (.dict []) []
      = .ok (.exc "oneOf clauses are only supported with accompanying discriminator attributes") :=
  rfl

/-! ## Claim C7 -/

/-- C7: for a document whose two operations share the `operationId`
    `"getThing"`, the claim says assembly does not raise and merges the
    duplicates into a list bucket.  The duplicate branch of
    `_collect_operations` (core.py 372) reads `self._operations[...]` inside
    a classmethod whose parameter is `cls`, so assembly raises
    `NameError: name 'self' is not defined` and the build does not
    complete. -/
theorem C7_duplicate_operation_id_raises_name_error :
    collectOperations 1 (.dict []) []
      [("/a", .dict [("get", .dict [("operationId", .str "getThing")])]),
       ("/b", .dict [("get", .dict [("operationId", .str "getThing")])])]
      []
      = .error (.nameError "self") :=
  rfl

/-! ## Claim C5 -/

/-- C5 counterexample: the claim says that on a successful response an
    *absent* `Content-Length` header also yields `None`.  On a 200 response
    with no `Content-Length` header, `response.headers["Content-Length"]`
    (core.py 224) raises a `KeyError` instead: the call fails and does not
    return `None`. -/
theorem C5_counterexample_absent_content_length_raises :
    decodeResponse [] (HttpResponse.mk 200 [] (.ok (.num 1)))
        = .error (.keyError "Content-Length")
      ∧ decodeResponse [] (HttpResponse.mk 200 [] (.ok (.num 1)))
        ≠ .ok Value.none := by
  have h1 : decodeResponse []
      (HttpResponse.mk 200 [] (.ok (.num 1))) = .error (.keyError "Content-Length") := rfl
  exact ⟨h1, by simp [h1]⟩

/-- Every type deserializes `None` to `None` (schemas.py 52-53). -/
theorem deserialize_as_none (ty : PyType) :
    deserialize_as Value.none ty = .ok Value.none := by
  rw [deserialize_as]

/-- C5 (amended): for a successful (non-4xx/5xx) response whose
    `Content-Length` header is present and parses to a non-positive integer,
    the invocation returns `None` without attempting JSON parsing (the
    `jsonBody` field, the outcome of `response.json()`, is arbitrary and
    unused); an absent header instead raises a `KeyError`
    (`C5_counterexample_absent_content_length_raises`). -/
theorem C5_zero_content_length_yields_none (response_types : List (RespKey × PyType))
    (r : HttpResponse) (s : String) (n : Int)
    (hok : r.status_code < 400)
    (hcl : headerLookup r.headers "Content-Length" = some s)
    (hn : pyIntParse s = some n) (hle : n ≤ 0) :
    decodeResponse response_types r = .ok Value.none := by
  rw [decodeResponse]
  rw [if_neg (show ¬(400 ≤ r.status_code) by omega)]
  simp only [hcl, pure_bind, hn, if_neg (show ¬(n > 0) by omega)]
  cases respLookup response_types (.int r.status_code) with
  | some t => simp [deserialize_as_none]
  | none =>
      cases respLookup response_types (.str "default") with
      | some t => simp [deserialize_as_none]
      | none => rfl

/-- C5 witness: a concrete 200 response with `Content-Length: 0` and an
    unparsable body decodes to `None`. -/
theorem C5_zero_content_length_yields_none_witness :
    decodeResponse [(.int 200, .float)]
      { status_code := 200, headers := [("Content-Length", "0")],
        jsonBody := .error .typeError }
      = .ok Value.none :=
  C5_zero_content_length_yields_none _ _ "0" 0 (by decide) rfl rfl (by decide)

/-! ## Claim C8 -/

theorem lookupStr_none_any_false {α : Type} (kvs : List (String × α)) (k : String)
    (h : lookupStr kvs k = Option.none) :
    (kvs.any fun p => p.1 == k) = false := by
  induction kvs with
  | nil => simp
  | cons hd tl ih =>
    obtain ⟨k', v⟩ := hd
    simp only [lookupStr] at h
    by_cases hk : k' = k
    · simp [hk] at h
    · simp only [hk, if_neg hk] at h
      simp [List.any_cons, hk, ih h]

theorem lookupStr_some_any_true {α : Type} (kvs : List (String × α)) (k : String)
    (v : α) (h : lookupStr kvs k = some v) :
    (kvs.any fun p => p.1 == k) = true := by
  induction kvs with
  | nil => simp [lookupStr] at h
  | cons hd tl ih =>
    obtain ⟨k', v'⟩ := hd
    simp only [lookupStr] at h
    by_cases hk : k' = k
    · simp [List.any_cons, hk]
    · simp only [if_neg hk] at h
      simp [List.any_cons, ih h]

theorem typeEquivalents_unknown (t : String)
    (h1 : t ≠ "number") (h2 : t ≠ "object") (h3 : t ≠ "boolean")
    (h4 : t ≠ "array") (h5 : t ≠ "string") :
    typeEquivalents (.str t) = .noneT := by
  simp [typeEquivalents, beqV, h1, h2, h3, h4, h5]

/-- C8 counterexample: the claim says an explicit but unsupported `type`
    keyword is a construction error.  Resolving `{"type": "integer"}` (the
    OpenAPI integer keyword is not in `TYPE_EQUIVALENTS`) instead returns
    normally, with the Python `None` that `TYPE_EQUIVALENTS.get(.., None)`
    produces in place of a type: no error is raised. -/
theorem C8_counterexample_unknown_type_keyword_returns_none :
    type_for_schema 1 (.dict [("type", .str "integer")]) (.dict []) []
      = .ok (.ty .noneT) :=
  rfl

/-- C8 (amended): for a schema fragment with no `$ref`, `allOf` or `oneOf`
    key and an explicit `type` keyword outside the supported table
    (string, number, boolean, array, object), `type_for_schema` does not
    raise: it returns normally with no descriptor -- the `None` default of
    the `TYPE_EQUIVALENTS` lookup (schemas.py 120). -/
theorem C8_unknown_type_keyword_resolves_to_none (fuel : Nat)
    (kvs : List (String × Value)) (full_spec : Value)
    (realized_types : List (String × PyType)) (ty : String)
    (href : lookupStr kvs "$ref" = Option.none)
    (hallof : lookupStr kvs "allOf" = Option.none)
    (honeof : lookupStr kvs "oneOf" = Option.none)
    (hty : lookupStr kvs "type" = some (.str ty))
    (h1 : ty ≠ "number") (h2 : ty ≠ "object") (h3 : ty ≠ "boolean")
    (h4 : ty ≠ "array") (h5 : ty ≠ "string") :
    type_for_schema (fuel + 1) (.dict kvs) full_spec realized_types
      = .ok (.ty .noneT) := by
  have h4' : (ty == "array") = false := by simp [h4]
  have h5' : (ty == "string") = false := by simp [h5]
  show typeForSchemaStep _ _ _ _ = _
  rw [typeForSchemaStep]
  simp only [pyHasKey, pyGetItem, pyGet,
    lookupStr_none_any_false _ _ href, lookupStr_none_any_false _ _ hallof,
    lookupStr_none_any_false _ _ honeof, lookupStr_some_any_true _ _ _ hty,
    hty, pure_bind, bindOk, bindErr, Bool.false_eq_true, if_false, if_true,
    ite_false, ite_true]
  rw [tfsTypeBranch]
  simp only [pyHasKey, pyGetItem, pyGet,
    lookupStr_some_any_true _ _ _ hty, hty, pure_bind, bindOk, bindErr,
    Bool.not_true, Bool.false_eq_true, if_false, ite_false, isStrLit, h4',
    h5', Bool.false_and]
  simp [typeEquivalents_unknown ty h1 h2 h3 h4 h5]

/-- C8 witness: the amended theorem applied to `{"type": "integer"}`. -/
theorem C8_unknown_type_keyword_resolves_to_none_witness :
    type_for_schema 1 (.dict [("type", .str "int64")]) (.dict []) []
      = .ok (.ty .noneT) :=
  C8_unknown_type_keyword_resolves_to_none 0 _ _ _ "int64" rfl rfl rfl rfl
    (by decide) (by decide) (by decide) (by decide) (by decide)

/-! ## Claim C4 -/

/-- C4: the claim says a call that omits a required or path-located
    parameter fails with a `MissingRequiredParameterError` whose message
    names the missing parameter.  The guard does fire -- here for a
    path-located parameter `id` that the document marked optional
    (`required := false`), omitted from a call with no arguments -- but the
    f-string of `raise ValueError(f"POSGUARD is required")` (core.py 174)
    references the undefined variable `name` (the loop variable is
    `param`), so the call instead raises
    `NameError: name 'name' is not defined`, which names nothing about the
    parameter. -/
theorem C4_missing_path_parameter_raises_name_error :
    collectApiParams
      [{ name := "id", raw_name := "id", type := .str, required := false,
         in_ := "path", default := .none }]
      [] (CallBuckets.mk [] [] [] [] .none)
      = .error (.nameError "name") :=
  rfl

/-! ## Claim C10 -/

/-- C10: union deserialization reads the discriminator with
    `data.get(field, None)` and rejects any falsy value with the
    field-not-found error (schemas.py 145-147): a present-but-falsy
    discriminator value (empty string, 0, false) raises exactly the same
    "discriminator mapping field not found on union object" error as a
    fully absent field, never the unknown-discriminator-value error --
    even when the falsy value is a key of the discriminator mapping, which
    is unconstrained here. -/
theorem C10_falsy_discriminator_is_field_not_found (u : TaggedUnion)
    (kvs : List (String × Value)) (v : Value)
    (hfield : lookupStr kvs u.discriminator_field = some v)
    (hfalsy : pyTruthy v = false) :
    TaggedUnion.deserialize u (.dict kvs)
      = .error (.exception "discriminator mapping field not found on union object") := by
  rw [TaggedUnion.deserialize]
  simp [hfield, hfalsy]

/-- C10 witness: a union discriminated on `type`, whose mapping has the
    empty string as a key, applied to a payload carrying exactly that falsy
    tag. -/
theorem C10_falsy_discriminator_is_field_not_found_witness :
    TaggedUnion.deserialize
      (.mk "type" [("", .dto (.mk "A" [] [] [] []))])
      (.dict [("type", .str "")])
      = .error (.exception "discriminator mapping field not found on union object") :=
  C10_falsy_discriminator_is_field_not_found _ _ (.str "") rfl rfl

/-! ## Claim C6 -/

/-- C6: on a successful response with a non-empty (positive
    `Content-Length`) JSON body, the decoder deserializes the parsed body
    against the response-type entry for the exact numeric status code when
    present, else against the `"default"` entry when present, else returns
    the raw parsed JSON unchanged (core.py 223-231). -/
theorem C6_response_type_dispatch (response_types : List (RespKey × PyType))
    (r : HttpResponse) (data : Value) (s : String) (n : Int)
    (hok : r.status_code < 400)
    (hcl : headerLookup r.headers "Content-Length" = some s)
    (hn : pyIntParse s = some n) (hpos : 0 < n)
    (hbody : r.jsonBody = .ok data) :
    (∀ t, respLookup response_types (.int r.status_code) = some t →
        decodeResponse response_types r = deserialize_as data t)
    ∧ (respLookup response_types (.int r.status_code) = Option.none →
        ∀ t, respLookup response_types (.str "default") = some t →
          decodeResponse response_types r = deserialize_as data t)
    ∧ (respLookup response_types (.int r.status_code) = Option.none →
        respLookup response_types (.str "default") = Option.none →
          decodeResponse response_types r = .ok data) := by
  have base : ∀ g : Value → Except PyErr Value,
      (do
        if 400 ≤ r.status_code then
          Except.error (.httpError r.status_code)
        else do
          let cl ←
            match headerLookup r.headers "Content-Length" with
            | some s => pure s
            | Option.none => Except.error (.keyError "Content-Length")
          let n ←
            match pyIntParse cl with
            | some n => pure n
            | Option.none =>
                Except.error (.valueError "invalid literal for int() with base 10")
          let dat ← if n > 0 then r.jsonBody else pure Value.none
          g dat) = g data := by
    intro g
    rw [if_neg (show ¬(400 ≤ r.status_code) by omega)]
    simp only [hcl, pure_bind, hn, if_pos hpos, hbody, bindOk]
  refine ⟨?_, ?_, ?_⟩
  · intro t ht
    rw [decodeResponse]
    rw [base]
    simp only [ht]
  · intro hnone t ht
    rw [decodeResponse]
    rw [base]
    simp only [hnone, ht]
  · intro hnone hnone2
    rw [decodeResponse]
    rw [base]
    simp only [hnone, hnone2]

/-- C6 witness: a 200 response with body `9` against a map holding both a
    200 entry and a default entry dispatches to the 200 entry. -/
theorem C6_response_type_dispatch_witness :
    decodeResponse [(.int 200, .float), (.str "default", .obj)]
      (HttpResponse.mk 200 [("Content-Length", "5")] (.ok (.num 9)))
      = deserialize_as (.num 9) .float :=
  (C6_response_type_dispatch [(.int 200, .float), (.str "default", .obj)]
    (HttpResponse.mk 200 [("Content-Length", "5")] (.ok (.num 9)))
    (.num 9) "5" 5 (by decide) rfl rfl (by decide) rfl).1 .float rfl

/-! ## Claim C9 -/

theorem setdefaultUpdate_lookup_other (kw kw' : List (String × Value))
    (key : String) (pairs : List (String × Value)) (k : String)
    (h : setdefaultUpdate kw key pairs = .ok kw') (hk : k ≠ key) :
    lookupStr kw' k = lookupStr kw k := by
  rw [setdefaultUpdate] at h
  cases hkey : lookupStr kw key with
  | none =>
      rw [hkey] at h
      injection h with h
      rw [← h]
      exact lookupStr_dictUpdate_other _ _ _ _ (fun e => hk e.symm)
  | some v =>
      rw [hkey] at h
      cases v with
      | dict d =>
          injection h with h
          rw [← h]
          exact lookupStr_dictUpdate_other _ _ _ _ (fun e => hk e.symm)
      | none => exact absurd h (by simp)
      | bool b => exact absurd h (by simp)
      | num n => exact absurd h (by simp)
      | str s => exact absurd h (by simp)
      | dt t => exact absurd h (by simp)
      | list xs => exact absurd h (by simp)
      | record c vs => exact absurd h (by simp)

theorem applyReqOpts_lookup_none (req_opts : List (String × Value))
    (kw : List (String × Value)) (k : String)
    (hkw : lookupStr kw k = Option.none)
    (hro : lookupStr req_opts k = Option.none) :
    lookupStr (applyReqOpts kw req_opts) k = Option.none := by
  induction req_opts generalizing kw with
  | nil => simpa [applyReqOpts]
  | cons hd tl ih =>
    obtain ⟨k1, v1⟩ := hd
    simp only [lookupStr] at hro
    by_cases hk1 : k1 = k
    · simp [hk1] at hro
    · rw [if_neg hk1] at hro
      rw [applyReqOpts] at *
      simp only [List.foldl_cons]
      cases hacc : lookupStr kw k1 with
      | some v => simpa [hacc] using ih kw hkw hro
      | none =>
          simp only [hacc]
          exact ih _ (by rw [lookupStr_dictUpdate_other _ _ _ _ hk1]; exact hkw) hro

theorem applyReqOpts_lookup_some (req_opts : List (String × Value))
    (kw : List (String × Value)) (k : String) (v : Value)
    (hkw : lookupStr kw k = some v) :
    lookupStr (applyReqOpts kw req_opts) k = some v := by
  induction req_opts generalizing kw with
  | nil => simpa [applyReqOpts]
  | cons hd tl ih =>
    obtain ⟨k1, v1⟩ := hd
    rw [applyReqOpts] at *
    simp only [List.foldl_cons]
    cases hacc : lookupStr kw k1 with
    | some w => simpa [hacc] using ih kw hkw
    | none =>
        simp only [hacc]
        have hk1 : k1 ≠ k := fun e => by
          rw [e] at hacc
          rw [hacc] at hkw
          exact Option.noConfusion hkw
        exact ih _ (by rw [lookupStr_dictUpdate_other _ _ _ _ hk1]; exact hkw)

/-- C9: in the generated call, a supplied body that serialized to a falsy
    value (`None`, `{}`, `[]`, `0`, `false`, `""`) is never attached as the
    request's JSON payload -- `kwargs["json"]` is only set under
    `if body:` (core.py 203-204) -- provided neither the caller's leftover
    kwargs (after `_`-prefix promotion) nor the client-wide request options
    supply a `json` entry themselves; a truthy serialized body always
    becomes the `json` payload. -/
theorem C9_falsy_body_not_attached (ps : List Parameter)
    (kwargs0 req_opts : List (String × Value)) (bks : CallBuckets)
    (rest kw : List (String × Value))
    (hcollect : collectApiParams ps kwargs0 (CallBuckets.mk [] [] [] [] .none)
      = .ok (bks, rest))
    (hbuild : buildRequestKwargs bks rest req_opts = .ok kw) :
    (pyTruthy bks.body = false →
      lookupStr (promoteInternal (rest.map Prod.fst) rest) "json" = Option.none →
      lookupStr req_opts "json" = Option.none →
      lookupStr kw "json" = Option.none)
    ∧ (pyTruthy bks.body = true → lookupStr kw "json" = some bks.body) := by
  rw [buildRequestKwargs] at hbuild
  cases h1 : setdefaultUpdate (promoteInternal (rest.map Prod.fst) rest) "params"
      bks.params with
  | error e => rw [h1] at hbuild; exact absurd hbuild (by simp [bindErr])
  | ok kw1 =>
  rw [h1, bindOk] at hbuild
  cases h2 : setdefaultUpdate kw1 "headers" bks.headers with
  | error e => rw [h2] at hbuild; exact absurd hbuild (by simp [bindErr])
  | ok kw2 =>
  rw [h2, bindOk] at hbuild
  cases h3 : setdefaultUpdate kw2 "cookies" bks.cookies with
  | error e => rw [h3] at hbuild; exact absurd hbuild (by simp [bindErr])
  | ok kw3 =>
  rw [h3, bindOk] at hbuild
  injection hbuild with hbuild
  constructor
  · intro hfalsy hjson hro
    rw [← hbuild, hfalsy]
    simp only [Bool.false_eq_true, if_false]
    apply applyReqOpts_lookup_none _ _ _ _ hro
    rw [setdefaultUpdate_lookup_other _ _ _ _ _ h3 (by decide),
        setdefaultUpdate_lookup_other _ _ _ _ _ h2 (by decide),
        setdefaultUpdate_lookup_other _ _ _ _ _ h1 (by decide)]
    exact hjson
  · intro htruthy
    rw [← hbuild, htruthy]
    simp only [if_true]
    exact applyReqOpts_lookup_some _ _ _ _ (lookupStr_dictUpdate_self _ _ _)

/-- C9 witness: a call supplying a body parameter whose value serializes to
    the falsy empty object attaches no JSON payload. -/
theorem C9_falsy_body_not_attached_witness :
    lookupStr
      [("params", Value.dict []), ("headers", Value.dict []),
       ("cookies", Value.dict [])] "json" = Option.none :=
  (C9_falsy_body_not_attached
    [{ name := "body", raw_name := "body", type := .obj, required := true,
       in_ := "requestBody", default := .none }]
    [("body", .dict [])] []
    (CallBuckets.mk [] [] [] [] (.dict [])) []
    [("params", Value.dict []), ("headers", Value.dict []),
     ("cookies", Value.dict [])]
    rfl rfl).1 rfl rfl rfl

/-! ## Claim C1 -/

/-- A `None` value serializes to `None` under any type (schemas.py 67-68). -/
theorem serialize_as_none (ty : PyType) (usePy : Bool) :
    serialize_as Value.none ty usePy = .ok Value.none := rfl

/-- Fields whose wire name is not `k` never touch key `k` of the output
    dict. -/
theorem dtoSerializeFields_untouched (nm : List (String × String))
    (req nul : List String) (fl : List (String × PyType × Value)) :
    ∀ (vals : List Value) (out0 out : List (String × Value)) (k : String),
      dtoSerializeFields nm req nul false fl vals out0 = .ok out →
      (∀ f ∈ fl, lookupStr nm f.1 ≠ some k) →
      lookupStr out k = lookupStr out0 k := by
  induction fl with
  | nil =>
    intro vals out0 out k h _
    rw [dtoSerializeFields] at h
    injection h with h
    rw [h]
  | cons f fl' ih =>
    intro vals out0 out k h hk
    obtain ⟨fn, ft, d⟩ := f
    have hkfn : lookupStr nm fn ≠ some k := hk (fn, ft, d) (by simp)
    have hktail : ∀ g ∈ fl', lookupStr nm g.1 ≠ some k := fun g hg =>
      hk g (by simp [hg])
    cases vals with
    | nil =>
      rw [dtoSerializeFields] at h
      exact absurd h (by simp)
    | cons v vals' =>
      cases v
      case none =>
        simp only [dtoSerializeFields, Bool.false_eq_true, if_false] at h
        by_cases hc : (req.contains fn || nul.contains fn) = true
        · rw [if_pos hc] at h
          split at h
          · exact absurd h (by simp)
          · next raw heq =>
              simp only [serialize_as_none] at h
              have hraw : raw ≠ k := fun e => hkfn (e ▸ heq)
              rw [ih vals' _ _ k h hktail]
              exact lookupStr_dictUpdate_other _ _ _ _ hraw
        · rw [if_neg hc] at h
          exact ih vals' _ _ k h hktail
      all_goals
        simp only [dtoSerializeFields, Bool.false_eq_true, if_false] at h
        split at h
        · exact absurd h (by simp)
        · next raw heq =>
            split at h
            · next sv hser =>
                have hraw : raw ≠ k := fun e => hkfn (e ▸ heq)
                rw [ih vals' _ _ k h hktail]
                exact lookupStr_dictUpdate_other _ _ _ _ hraw
            · exact absurd h (by simp)

/-- The per-field serialization behaviour of `BaseDto.serialize` for a field
    holding `None`, over the loop: skipped entirely when optional-absent,
    emitted as an explicit null when required or nullable. -/
theorem dtoSerializeFields_none_field (nm : List (String × String))
    (req nul : List String) (fname : String) (fty : PyType) (dflt : Value)
    (w : String) (fl : List (String × PyType × Value)) :
    ∀ (vals : List Value) (out0 out : List (String × Value)),
      dtoSerializeFields nm req nul false fl vals out0 = .ok out →
      ((fname, fty, dflt), Value.none) ∈ fl.zip vals →
      lookupStr nm fname = some w →
      (fl.map fun f => f.1).Nodup →
      (∀ f ∈ fl, f.1 ≠ fname → lookupStr nm f.1 ≠ some w) →
      lookupStr out0 w = Option.none →
      ((req.contains fname || nul.contains fname) = false →
          lookupStr out w = Option.none)
      ∧ ((req.contains fname || nul.contains fname) = true →
          lookupStr out w = some Value.none) := by
  induction fl with
  | nil =>
    intro vals out0 out _ hmem _ _ _ _
    simp at hmem
  | cons f fl' ih =>
    intro vals out0 out h hmem hw hnodup hinj hout0
    obtain ⟨fn, ft, d⟩ := f
    cases vals with
    | nil =>
      rw [dtoSerializeFields] at h
      exact absurd h (by simp)
    | cons v vals' =>
      rw [List.zip_cons_cons] at hmem
      rcases List.mem_cons.mp hmem with hhead | htail
      · -- the field in question is the head of the loop
        injection hhead with h1 h2
        injection h1 with e1 e23
        subst e1
        subst h2
        -- the remaining fields never touch w
        have hrest' : ∀ g ∈ fl', lookupStr nm g.1 ≠ some w := by
          intro g hg
          have hgname : g.1 ≠ fname := by
            intro e
            have := (List.nodup_cons.mp hnodup).1
            exact this (e ▸ List.mem_map_of_mem (fun f => f.1) hg)
          exact hinj g (List.mem_cons_of_mem _ hg) hgname
        constructor
        · intro hc
          rw [dtoSerializeFields] at h
          rw [hc] at h
          simp only [Bool.false_eq_true, if_false] at h
          rw [dtoSerializeFields_untouched nm req nul fl' vals' _ _ w h hrest']
          exact hout0
        · intro hc
          simp only [dtoSerializeFields, Bool.false_eq_true, if_false] at h
          rw [if_pos hc] at h
          rw [hw] at h
          simp only [serialize_as_none] at h
          rw [dtoSerializeFields_untouched nm req nul fl' vals' _ _ w h hrest']
          exact lookupStr_dictUpdate_self _ _ _
      · -- the field in question sits in the tail of the loop
        have hmemtail : ((fname, fty, dflt), Value.none) ∈ fl'.zip vals' := htail
        have hfname_tail : fname ∈ fl'.map fun f => f.1 := by
          have := List.mem_zip hmemtail
          exact List.mem_map_of_mem (fun f => f.1) this.1
        have hfn_ne : fn ≠ fname := by
          intro e
          exact (List.nodup_cons.mp hnodup).1 (e ▸ hfname_tail)
        have hnodup' : (fl'.map fun f => f.1).Nodup := (List.nodup_cons.mp hnodup).2
        have hinj' : ∀ f ∈ fl', f.1 ≠ fname → lookupStr nm f.1 ≠ some w :=
          fun f hf => hinj f (List.mem_cons_of_mem _ hf)
        have hfnw : lookupStr nm fn ≠ some w := hinj (fn, ft, d) (by simp) hfn_ne
        -- the head field leaves key w of the accumulator unchanged
        cases v
        case none =>
          simp only [dtoSerializeFields, Bool.false_eq_true, if_false] at h
          by_cases hc : (req.contains fn || nul.contains fn) = true
          · rw [if_pos hc] at h
            split at h
            · exact absurd h (by simp)
            · next raw heq =>
                simp only [serialize_as_none] at h
                have hraw : raw ≠ w := fun e => hfnw (e ▸ heq)
                exact ih vals' _ _ h hmemtail hw hnodup' hinj'
                  (by rw [lookupStr_dictUpdate_other _ _ _ _ hraw]; exact hout0)
          · rw [if_neg hc] at h
            exact ih vals' _ _ h hmemtail hw hnodup' hinj' hout0
        all_goals
          simp only [dtoSerializeFields, Bool.false_eq_true, if_false] at h
          split at h
          · exact absurd h (by simp)
          · next raw heq =>
              split at h
              · next sv hser =>
                  have hraw : raw ≠ w := fun e => hfnw (e ▸ heq)
                  exact ih vals' _ _ h hmemtail hw hnodup' hinj'
                    (by rw [lookupStr_dictUpdate_other _ _ _ _ hraw]; exact hout0)
              · exact absurd h (by simp)

/-- C1: when `BaseDto.serialize` succeeds on a record value, a field that is
    in neither `required_fields` nor `nullable_fields` and holds `None` is
    not present as a key of the wire dict under its wire name, while a field
    that is in `required_fields` or `nullable_fields` and holds `None` is
    present under its wire name with an explicit null (schemas.py 24-34).
    The wire-name hypotheses reflect the record invariant that the name map
    is defined on every field and injective across the record's fields. -/
theorem C1_none_field_omitted_or_null (c : DtoClass) (vals : List Value)
    (out : List (String × Value)) (fname : String) (fty : PyType)
    (dflt : Value) (w : String)
    (hser : serialize_as (.record c vals) (.dto c) false = .ok (.dict out))
    (hmem : ((fname, fty, dflt), Value.none) ∈ c.fields.zip vals)
    (hw : lookupStr c.name_map fname = some w)
    (hnodup : (c.fields.map fun f => f.1).Nodup)
    (hinj : ∀ f ∈ c.fields, f.1 ≠ fname →
      lookupStr c.name_map f.1 ≠ some w) :
    ((c.required_fields.contains fname || c.nullable_fields.contains fname)
        = false → lookupStr out w = Option.none)
    ∧ ((c.required_fields.contains fname || c.nullable_fields.contains fname)
        = true → lookupStr out w = some Value.none) := by
  rw [serialize_as] at hser
  cases hgo : dtoSerializeFields c.name_map c.required_fields c.nullable_fields
      false c.fields vals [] with
  | error e => rw [hgo] at hser; exact absurd hser (by simp)
  | ok o =>
    rw [hgo] at hser
    injection hser with hser
    injection hser with hser
    subst hser
    exact dtoSerializeFields_none_field _ _ _ _ _ _ _ _ vals [] o hgo hmem hw
      hnodup hinj rfl

/-- C1 witness: a two-field record with `x` optional-absent and `y`
    nullable, both holding `None`: `x` is omitted from the wire dict, `y`
    appears as an explicit null. -/
theorem C1_none_field_omitted_or_null_witness :
    (lookupStr [("Y", Value.none)] "X" = Option.none)
    ∧ (lookupStr [("Y", Value.none)] "Y" = some Value.none) :=
  ⟨(C1_none_field_omitted_or_null
      (.mk "Ex" [("x", .float, .none), ("y", .str, .none)]
        [("x", "X"), ("y", "Y")] [] ["y"])
      [.none, .none] [("Y", Value.none)] "x" .float .none "X"
      rfl (List.Mem.head _) rfl (by decide) (by
        intro f hf hne
        simp only [DtoClass.name_map]
        fin_cases hf
        · exact absurd rfl hne
        · decide)).1 rfl,
   (C1_none_field_omitted_or_null
      (.mk "Ex" [("x", .float, .none), ("y", .str, .none)]
        [("x", "X"), ("y", "Y")] [] ["y"])
      [.none, .none] [("Y", Value.none)] "y" .str .none "Y"
      rfl (List.Mem.tail _ (List.Mem.head _)) rfl (by decide) (by
        intro f hf hne
        simp only [DtoClass.name_map]
        fin_cases hf
        · decide
        · exact absurd rfl hne)).2 rfl⟩

/-! ## Claim C2 -/

/-- C2 counterexample: the record type `Ex` has one field `x` that is
    neither required nor nullable and carries the schema default `3`; the
    value `V` holds `None` in `x` and uses no `Any` descriptor anywhere.
    Serialization omits `x` (optional-absent), and deserialization of the
    resulting empty dict then installs the *default* `3` (schemas.py 43-44),
    so `deserialize(serialize(V))` is the record with `x = 3`, not `V`. -/
theorem C2_counterexample_default_breaks_roundtrip :
    (serialize_as
        (.record (.mk "Ex" [("x", .float, .num 3)] [("x", "X")] [] []) [.none])
        (.dto (.mk "Ex" [("x", .float, .num 3)] [("x", "X")] [] [])) false
      = .ok (.dict []))
    ∧ (deserialize_as (.dict [])
        (.dto (.mk "Ex" [("x", .float, .num 3)] [("x", "X")] [] []))
      = .ok (.record (.mk "Ex" [("x", .float, .num 3)] [("x", "X")] [] [])
          [.num 3]))
    ∧ Value.record (.mk "Ex" [("x", .float, .num 3)] [("x", "X")] [] []) [.num 3]
        ≠ Value.record (.mk "Ex" [("x", .float, .num 3)] [("x", "X")] [] []) [.none] := by
  refine ⟨rfl, ?_, by simp⟩
  simp [deserialize_as, dtoDeserializeFields, dtoFieldFromDict, lookupStr,
    DtoClass.name_map, DtoClass.fields]

/-! ### Round-trippability

`deserialize_as ∘ serialize_as` is not the identity in general (see the
counterexample above); the predicate `RT` below carves out the values on
which the two are inverse: the value is well typed against its descriptor
(`BaseDto` and `TaggedUnion` descriptors only meet `None` or matching
record instances, `datetime` never meets a `str`), every class met along
the way has a total `name_map` with pairwise distinct wire names, a `None`
in a field that is neither required nor nullable is only allowed when the
schema default for that field is itself `None`, and a record serialized
under a `TaggedUnion` descriptor carries a truthy string discriminator
that the mapping sends back to the record's own class. -/

/-- The wire names of a field list under a `name_map`, in declaration
    order; `Option.none` when some field has no `name_map` entry. -/
def wiresOf (nm : List (String × String)) :
    List (String × PyType × Value) → Option (List String)
  | [] => some []
  | (fname, _, _) :: fl =>
      match lookupStr nm fname, wiresOf nm fl with
      | some w, some ws => some (w :: ws)
      | _, _ => Option.none

/-- A registry-sane class: every declared field has a wire name and no two
    fields share one. -/
def WfClass (c : DtoClass) : Prop :=
  ∃ ws, wiresOf c.name_map c.fields = some ws ∧ ws.Nodup

mutual

/-- The values on which serialization is inverted by deserialization. -/
def RT (v : Value) (t : PyType) : Prop :=
  match t, v with
  | _, .none => True
  | .dto c', .record c vals =>
      c' = c ∧ WfClass c
        ∧ RTFields c.required_fields c.nullable_fields c.fields vals
  | .dto _, _ => False
  | .union u, .record c vals =>
      ((u.allowed_types).any (fun t => beqT t (.dto c))) = true
      ∧ WfClass c
      ∧ RTFields c.required_fields c.nullable_fields c.fields vals
      ∧ (∃ out tag,
           dtoSerializeFields c.name_map c.required_fields c.nullable_fields
             false c.fields vals [] = .ok out
           ∧ lookupStr out u.discriminator_field = some (.str tag)
           ∧ tag ≠ ""
           ∧ lookupStr u.discriminator_mapping tag = some (.dto c))
  | .union _, _ => False
  | .listOf t', .list xs => RTList xs t'
  | .datetime, .str _ => False
  | _, _ => True
termination_by structural v

/-- Field-wise round-trippability, walking declared fields and instance
    values in lockstep: a `None` value must be emitted (required or
    nullable field) or must coincide with the schema default, and any
    other value must itself round-trip at the field's type. -/
def RTFields (req nul : List String) (fl : List (String × PyType × Value))
    (vals : List Value) : Prop :=
  match fl, vals with
  | [], [] => True
  | (fname, fty, dflt) :: fl', v :: vals' =>
      ((v = Value.none
          ∧ ((req.contains fname || nul.contains fname) = true
              ∨ dflt = Value.none))
       ∨ (¬(v = Value.none) ∧ RT v fty))
      ∧ RTFields req nul fl' vals'
  | _, _ => False
termination_by structural vals

/-- Element-wise round-trippability of a list. -/
def RTList (xs : List Value) (t : PyType) : Prop :=
  match xs with
  | [] => True
  | x :: rest => RT x t ∧ RTList rest t
termination_by structural xs

end

/-- Key absent from the wire dict: the one-field walk reports "not in
    data". -/
theorem dtoFieldFromDict_of_lookup_none (kvs : List (String × Value))
    (raw : String) (fty : PyType) (h : lookupStr kvs raw = Option.none) :
    dtoFieldFromDict kvs raw fty = .ok Option.none := by
  induction kvs with
  | nil => rw [dtoFieldFromDict]
  | cons p rest ih =>
    obtain ⟨k, v⟩ := p
    rw [lookupStr] at h
    rw [dtoFieldFromDict]
    by_cases hk : k = raw
    · simp [hk] at h
    · rw [if_neg hk] at h ⊢
      exact ih h

/-- Key present in the wire dict: the one-field walk deserializes the
    stored value. -/
theorem dtoFieldFromDict_of_lookup_some (kvs : List (String × Value))
    (raw : String) (fty : PyType) (x : Value)
    (h : lookupStr kvs raw = some x) :
    dtoFieldFromDict kvs raw fty =
      match deserialize_as x fty with
      | .ok dv => .ok (some dv)
      | .error e => .error e := by
  induction kvs with
  | nil => rw [lookupStr] at h; exact absurd h (by simp)
  | cons p rest ih =>
    obtain ⟨k, v⟩ := p
    rw [lookupStr] at h
    rw [dtoFieldFromDict]
    by_cases hk : k = raw
    · rw [if_pos hk] at h ⊢
      injection h with h
      rw [h]
    · rw [if_neg hk] at h ⊢
      exact ih h

/-- Dispatch through the discriminator mapping is deserialization at the
    mapped member type. -/
theorem unionDispatch_of_lookup (entries : List (String × PyType))
    (tag : String) (d : Value) (ty : PyType)
    (h : lookupStr entries tag = some ty) :
    unionDispatch entries tag d = deserialize_as d ty := by
  induction entries with
  | nil => rw [lookupStr] at h; exact absurd h (by simp)
  | cons p rest ih =>
    obtain ⟨k, t⟩ := p
    rw [lookupStr] at h
    rw [unionDispatch]
    by_cases hk : k = tag
    · rw [if_pos hk] at h ⊢
      injection h with h
      rw [h]
    · rw [if_neg hk] at h ⊢
      exact ih h

/-- `BaseDto.deserialize` reconstructs the instance values field by field
    when the wire dict stores, for every declared field, either nothing
    (and the schema default and instance value are both `None`) or a value
    that deserializes to the instance value. -/
theorem dtoDeserializeFields_reconstruct (nm : List (String × String)) :
    ∀ (fl : List (String × PyType × Value)) (vals : List Value)
      (OUT : List (String × Value)),
      fl.length = vals.length →
      (∀ p ∈ fl.zip vals, ∃ w, lookupStr nm p.1.1 = some w ∧
        ((lookupStr OUT w = Option.none ∧ p.1.2.2 = Value.none
            ∧ p.2 = Value.none)
         ∨ (∃ sv, lookupStr OUT w = some sv
              ∧ deserialize_as sv p.1.2.1 = .ok p.2))) →
      dtoDeserializeFields nm fl (.dict OUT) = .ok vals := by
  intro fl
  induction fl with
  | nil =>
    intro vals OUT hlen _
    cases vals with
    | nil => rw [dtoDeserializeFields]
    | cons v vals' => exact absurd hlen (by simp)
  | cons f fl' ih =>
    intro vals OUT hlen hfacts
    obtain ⟨fname, fty, dflt⟩ := f
    cases vals with
    | nil => exact absurd hlen (by simp)
    | cons v vals' =>
      obtain ⟨w, hw, hcase⟩ :=
        hfacts ((fname, fty, dflt), v) (by rw [List.zip_cons_cons]; exact .head _)
      have htail := fun p hp =>
        hfacts p (by rw [List.zip_cons_cons]; exact .tail _ hp)
      have hrest := ih vals' OUT (by simpa using hlen) htail
      have hw' : lookupStr nm fname = some w := hw
      rw [dtoDeserializeFields]
      simp only [hw']
      rcases hcase with ⟨ho, hd, hv⟩ | ⟨sv, ho, hdes⟩
      · have hd' : dflt = Value.none := hd
        have hv' : v = Value.none := hv
        rw [dtoFieldFromDict_of_lookup_none OUT w fty ho]
        simp only [hrest, hd', hv']
      · have ho' : lookupStr OUT w = some sv := ho
        have hdes' : deserialize_as sv fty = .ok v := hdes
        rw [dtoFieldFromDict_of_lookup_some OUT w fty sv ho']
        simp only [hdes', hrest]

/-- Unfolding of the serializer's field step on a non-`None` head value:
    the emit path is taken unconditionally. -/
theorem dtoSerializeFields_cons_ne_none (nm : List (String × String))
    (req nul : List String) (fname : String) (fty : PyType) (dflt : Value)
    (fl' : List (String × PyType × Value)) (vals' : List Value)
    (out0 : List (String × Value)) (v : Value) (hne : v ≠ Value.none) :
    dtoSerializeFields nm req nul false ((fname, fty, dflt) :: fl')
        (v :: vals') out0 =
      match lookupStr nm fname with
      | Option.none => .error (.keyError fname)
      | some raw =>
          match serialize_as v fty false with
          | .ok sv => dtoSerializeFields nm req nul false fl' vals'
              (dictUpdate out0 raw sv)
          | .error e => .error e := by
  cases v
  case none => exact absurd rfl hne
  all_goals rfl

/-- `BaseDto.serialize` succeeds on a field-wise round-trippable instance
    of a registry-sane class, leaves keys outside the class's wire names
    untouched, and stores every field so that
    `dtoDeserializeFields_reconstruct` applies: an omitted field has a
    `None` default and a `None` instance value, and a stored field holds a
    wire value that deserializes back to the instance value. -/
theorem dtoSerializeFields_roundtrip_aux (nm : List (String × String))
    (req nul : List String) :
    ∀ (fl : List (String × PyType × Value)) (vals : List Value)
      (ws : List String) (out0 : List (String × Value)),
      RTFields req nul fl vals →
      wiresOf nm fl = some ws →
      ws.Nodup →
      (∀ w ∈ ws, lookupStr out0 w = Option.none) →
      (∀ v ∈ vals, ∀ tt, RT v tt →
        ∃ sv, serialize_as v tt false = .ok sv ∧ deserialize_as sv tt = .ok v) →
      ∃ out, dtoSerializeFields nm req nul false fl vals out0 = .ok out
        ∧ (∀ k, k ∉ ws → lookupStr out k = lookupStr out0 k)
        ∧ (∀ p ∈ fl.zip vals, ∃ w, lookupStr nm p.1.1 = some w ∧
            ((lookupStr out w = Option.none ∧ p.1.2.2 = Value.none
                ∧ p.2 = Value.none)
             ∨ (∃ sv, lookupStr out w = some sv
                  ∧ deserialize_as sv p.1.2.1 = .ok p.2))) := by
  intro fl
  induction fl with
  | nil =>
    intro vals ws out0 hrt hws _ _ _
    cases vals with
    | nil =>
      rw [wiresOf] at hws
      injection hws with hws
      subst hws
      exact ⟨out0, by rw [dtoSerializeFields], fun k _ => rfl, by simp⟩
    | cons v vals' => exact absurd hrt (by simp [RTFields])
  | cons f fl' ih =>
    intro vals ws out0 hrt hws hnd hclean helem
    obtain ⟨fname, fty, dflt⟩ := f
    cases vals with
    | nil => exact absurd hrt (by simp [RTFields])
    | cons v vals' =>
      obtain ⟨hv, hrt'⟩ := hrt
      rw [wiresOf] at hws
      cases hl : lookupStr nm fname with
      | none =>
        cases hw2 : wiresOf nm fl' <;> rw [hl, hw2] at hws <;>
          exact absurd hws (by simp)
      | some w =>
        cases hw2 : wiresOf nm fl' with
        | none => rw [hl, hw2] at hws; exact absurd hws (by simp)
        | some ws' =>
          rw [hl, hw2] at hws
          simp only [] at hws
          injection hws with hws
          subst hws
          obtain ⟨hwnotin, hnd'⟩ : w ∉ ws' ∧ ws'.Nodup := by
            rw [List.nodup_cons] at hnd; exact hnd
          have hcw : lookupStr out0 w = Option.none := hclean w (.head _)
          have hclean' := fun w'' hw'' => hclean w'' (.tail _ hw'')
          have helem' := fun v' hv' tt h =>
            helem v' (List.mem_cons_of_mem _ hv') tt h
          rcases hv with ⟨rfl, hv'⟩ | ⟨hne, hvr⟩
          · rw [dtoSerializeFields]
            by_cases he : (req.contains fname || nul.contains fname) = true
            · rw [if_pos he]
              simp only [Bool.false_eq_true, if_false, hl, serialize_as_none]
              have hclean1 : ∀ w'' ∈ ws',
                  lookupStr (dictUpdate out0 w Value.none) w'' = Option.none := by
                intro w'' hmem
                rw [lookupStr_dictUpdate_other _ _ _ _
                  (fun e => hwnotin (by rw [e]; exact hmem))]
                exact hclean' w'' hmem
              obtain ⟨out, hser, hframe, hfields⟩ :=
                ih vals' ws' (dictUpdate out0 w Value.none) hrt' hw2 hnd'
                  hclean1 helem'
              refine ⟨out, hser, ?_, ?_⟩
              · intro k hk
                simp only [List.mem_cons, not_or] at hk
                rw [hframe k hk.2]
                exact lookupStr_dictUpdate_other _ _ _ _ (fun e => hk.1 e.symm)
              · intro p hp
                rw [List.zip_cons_cons] at hp
                rcases List.mem_cons.mp hp with rfl | hp'
                · refine ⟨w, hl, .inr ⟨Value.none, ?_, deserialize_as_none fty⟩⟩
                  rw [hframe w hwnotin]
                  exact lookupStr_dictUpdate_self _ _ _
                · exact hfields p hp'
            · rw [if_neg he]
              have hd : dflt = Value.none := by
                rcases hv' with h | h
                · exact absurd h he
                · exact h
              obtain ⟨out, hser, hframe, hfields⟩ :=
                ih vals' ws' out0 hrt' hw2 hnd' hclean' helem'
              refine ⟨out, hser, ?_, ?_⟩
              · intro k hk
                simp only [List.mem_cons, not_or] at hk
                exact hframe k hk.2
              · intro p hp
                rw [List.zip_cons_cons] at hp
                rcases List.mem_cons.mp hp with rfl | hp'
                · refine ⟨w, hl, .inl ⟨?_, hd, rfl⟩⟩
                  rw [hframe w hwnotin]
                  exact hcw
                · exact hfields p hp'
          · obtain ⟨sv, hserv, hdeserv⟩ := helem _ (.head _) fty hvr
            rw [dtoSerializeFields_cons_ne_none nm req nul fname fty dflt
              fl' vals' out0 v hne]
            simp only [hl, hserv]
            have hclean1 : ∀ w'' ∈ ws',
                lookupStr (dictUpdate out0 w sv) w'' = Option.none := by
              intro w'' hmem
              rw [lookupStr_dictUpdate_other _ _ _ _
                (fun e => hwnotin (by rw [e]; exact hmem))]
              exact hclean' w'' hmem
            obtain ⟨out, hser, hframe, hfields⟩ :=
              ih vals' ws' (dictUpdate out0 w sv) hrt' hw2 hnd' hclean1 helem'
            refine ⟨out, hser, ?_, ?_⟩
            · intro k hk
              simp only [List.mem_cons, not_or] at hk
              rw [hframe k hk.2]
              exact lookupStr_dictUpdate_other _ _ _ _ (fun e => hk.1 e.symm)
            · intro p hp
              rw [List.zip_cons_cons] at hp
              rcases List.mem_cons.mp hp with rfl | hp'
              · refine ⟨w, hl, .inr ⟨sv, ?_, hdeserv⟩⟩
                rw [hframe w hwnotin]
                exact lookupStr_dictUpdate_self _ _ _
              · exact hfields p hp'

/-- Field-wise round-trippability forces the instance to carry exactly one
    value per declared field. -/
theorem RTFields_length (req nul : List String) :
    ∀ (fl : List (String × PyType × Value)) (vals : List Value),
      RTFields req nul fl vals → fl.length = vals.length := by
  intro fl
  induction fl with
  | nil =>
    intro vals h
    cases vals with
    | nil => rfl
    | cons v vs => exact False.elim h
  | cons f fl' ih =>
    intro vals h
    obtain ⟨fname, fty, dflt⟩ := f
    cases vals with
    | nil => exact False.elim h
    | cons v vs =>
      have := ih vs h.2
      simp only [List.length_cons]
      omega

/-- Unfolding of `deserialize_as` on a dict against a `BaseDto` type. -/
theorem deserialize_as_dict_dto (kvs : List (String × Value)) (c : DtoClass) :
    deserialize_as (.dict kvs) (.dto c) =
      match dtoDeserializeFields c.name_map c.fields (.dict kvs) with
      | .ok vals => .ok (.record c vals)
      | .error e => .error e := by
  rw [deserialize_as]
  intro h
  exact Value.noConfusion h

/-- Unfolding of `deserialize_as` on a dict against a `TaggedUnion` type. -/
theorem deserialize_as_dict_union (kvs : List (String × Value))
    (u : TaggedUnion) :
    deserialize_as (.dict kvs) (.union u) = TaggedUnion.deserialize u (.dict kvs) := by
  rw [deserialize_as]
  intro h
  exact Value.noConfusion h

/-- Unfolding of `deserialize_as` on a list against `typing.List[t]`. -/
theorem deserialize_as_list_listOf (xs : List Value) (t : PyType) :
    deserialize_as (.list xs) (.listOf t) =
      match deserializeItems xs t with
      | .ok ys => .ok (.list ys)
      | .error e => .error e := by
  rw [deserialize_as]

/-- Unfolding of `deserialize_as` on a string against `datetime`. -/
theorem deserialize_as_str_datetime (s : String) :
    deserialize_as (.str s) .datetime = dateutilParse s := by
  rw [deserialize_as]

/-- The codec round-trips every round-trippable value: serialization
    succeeds and deserialization at the same descriptor restores the exact
    value.  Strong induction on the size of the value. -/
theorem rt_roundtrip :
    ∀ (n : Nat) (v : Value) (t : PyType), sizeOf v ≤ n → RT v t →
      ∃ w, serialize_as v t false = .ok w ∧ deserialize_as w t = .ok v := by
  intro n
  induction n using Nat.strong_induction_on with
  | _ n IH =>
    intro v t hle hrt
    have IHlt : ∀ (v' : Value) (t' : PyType), sizeOf v' < sizeOf v →
        RT v' t' → ∃ w, serialize_as v' t' false = .ok w
          ∧ deserialize_as w t' = .ok v' :=
      fun v' t' hs h => IH (sizeOf v') (lt_of_lt_of_le hs hle) v' t' le_rfl h
    clear IH hle
    cases t
    case dto c' =>
      cases v
      case none =>
        exact ⟨Value.none, serialize_as_none _ _, deserialize_as_none _⟩
      case record c vals =>
        have hrt' : c' = c ∧ WfClass c
            ∧ RTFields c.required_fields c.nullable_fields c.fields vals := hrt
        obtain ⟨rfl, ⟨ws, hws, hnd⟩, hfl⟩ := hrt'
        have helem : ∀ v' ∈ vals, ∀ tt, RT v' tt →
            ∃ sv, serialize_as v' tt false = .ok sv
              ∧ deserialize_as sv tt = .ok v' := by
          intro v' hv' tt h
          refine IHlt v' tt ?_ h
          have h1 := List.sizeOf_lt_of_mem hv'
          have h2 : sizeOf vals < sizeOf (Value.record c' vals) := by
            simp only [Value.record.sizeOf_spec]
            omega
          omega
        obtain ⟨out, hser, hframe, hfields⟩ :=
          dtoSerializeFields_roundtrip_aux c'.name_map c'.required_fields
            c'.nullable_fields c'.fields vals ws [] hfl hws hnd
            (fun w hw => rfl) helem
        have hlen := RTFields_length c'.required_fields c'.nullable_fields
          c'.fields vals hfl
        have hdes := dtoDeserializeFields_reconstruct c'.name_map c'.fields
          vals out hlen hfields
        refine ⟨.dict out, ?_, ?_⟩
        · have hunf : serialize_as (.record c' vals) (.dto c') false =
              match dtoSerializeFields c'.name_map c'.required_fields
                  c'.nullable_fields false c'.fields vals [] with
              | .ok o => .ok (.dict o)
              | .error e => .error e := rfl
          rw [hunf]
          simp only [hser]
        · rw [deserialize_as_dict_dto]
          simp only [hdes]
      all_goals exact False.elim hrt
    case union u =>
      cases v
      case none =>
        exact ⟨Value.none, serialize_as_none _ _, deserialize_as_none _⟩
      case record c vals =>
        have hrt' : ((u.allowed_types).any (fun t => beqT t (.dto c))) = true
            ∧ WfClass c
            ∧ RTFields c.required_fields c.nullable_fields c.fields vals
            ∧ (∃ out tag,
                dtoSerializeFields c.name_map c.required_fields
                  c.nullable_fields false c.fields vals [] = .ok out
                ∧ lookupStr out u.discriminator_field = some (.str tag)
                ∧ tag ≠ ""
                ∧ lookupStr u.discriminator_mapping tag = some (.dto c)) := hrt
        obtain ⟨hany, ⟨ws, hws, hnd⟩, hfl, out1, tag, hser1, htag, htagne, hmap⟩ :=
          hrt'
        have helem : ∀ v' ∈ vals, ∀ tt, RT v' tt →
            ∃ sv, serialize_as v' tt false = .ok sv
              ∧ deserialize_as sv tt = .ok v' := by
          intro v' hv' tt h
          refine IHlt v' tt ?_ h
          have h1 := List.sizeOf_lt_of_mem hv'
          have h2 : sizeOf vals < sizeOf (Value.record c vals) := by
            simp only [Value.record.sizeOf_spec]
            omega
          omega
        obtain ⟨out, hser, hframe, hfields⟩ :=
          dtoSerializeFields_roundtrip_aux c.name_map c.required_fields
            c.nullable_fields c.fields vals ws [] hfl hws hnd
            (fun w hw => rfl) helem
        rw [hser] at hser1
        injection hser1 with e
        subst e
        have hlen := RTFields_length c.required_fields c.nullable_fields
          c.fields vals hfl
        have hdes := dtoDeserializeFields_reconstruct c.name_map c.fields
          vals out hlen hfields
        refine ⟨.dict out, ?_, ?_⟩
        · have hunf : serialize_as (.record c vals) (.union u) false =
              (if (u.allowed_types).any (fun t => beqT t (.dto c)) then
                match dtoSerializeFields c.name_map c.required_fields
                    c.nullable_fields false c.fields vals [] with
                | .ok o => .ok (.dict o)
                | .error e => .error e
              else .ok (.record c vals)) := rfl
          rw [hunf, if_pos hany]
          simp only [hser]
        · rw [deserialize_as_dict_union, TaggedUnion.deserialize]
          have htb : (tag != "") = true := by simpa using htagne
          simp only [htag, Option.getD_some, pyTruthy]
          rw [if_pos htb]
          rw [unionDispatch_of_lookup u.discriminator_mapping tag
            (.dict out) (.dto c) hmap]
          rw [deserialize_as_dict_dto]
          simp only [hdes]
      all_goals exact False.elim hrt
    case listOf t' =>
      cases v
      case none =>
        exact ⟨Value.none, serialize_as_none _ _, deserialize_as_none _⟩
      case list xs =>
        have hlist : RTList xs t' := hrt
        have haux : ∀ (ys : List Value), RTList ys t' →
            (∀ x ∈ ys, ∀ tt, RT x tt → ∃ w, serialize_as x tt false = .ok w
              ∧ deserialize_as w tt = .ok x) →
            ∃ zs, serializeItems ys t' false = .ok zs
              ∧ deserializeItems zs t' = .ok ys := by
          intro ys
          induction ys with
          | nil =>
            intro _ _
            exact ⟨[], rfl, by rw [deserializeItems]⟩
          | cons x ys' ihys =>
            intro hys hmem
            have hx : RT x t' ∧ RTList ys' t' := hys
            obtain ⟨w1, hs1, hd1⟩ := hmem x (.head _) t' hx.1
            obtain ⟨zs, hs2, hd2⟩ := ihys hx.2
              (fun x' hx' tt h => hmem x' (.tail _ hx') tt h)
            refine ⟨w1 :: zs, ?_, ?_⟩
            · have hunf : serializeItems (x :: ys') t' false =
                  (match serialize_as x t' false with
                   | .ok y =>
                       match serializeItems ys' t' false with
                       | .ok ys2 => .ok (y :: ys2)
                       | .error e => .error e
                   | .error e => .error e) := rfl
              rw [hunf]
              simp only [hs1, hs2]
            · rw [deserializeItems]
              simp only [hd1, hd2]
        obtain ⟨zs, hs, hd⟩ := haux xs hlist (fun x hx tt h => by
          refine IHlt x tt ?_ h
          have h1 := List.sizeOf_lt_of_mem hx
          have h2 : sizeOf xs < sizeOf (Value.list xs) := by
            simp only [Value.list.sizeOf_spec]
            omega
          omega)
        refine ⟨.list zs, ?_, ?_⟩
        · have hunf : serialize_as (.list xs) (.listOf t') false =
              (match serializeItems xs t' false with
               | .ok ys => .ok (.list ys)
               | .error e => .error e) := rfl
          rw [hunf]
          simp only [hs]
        · rw [deserialize_as_list_listOf]
          simp only [hd]
      all_goals exact ⟨_, rfl, by simp [deserialize_as]⟩
    case datetime =>
      cases v
      case none =>
        exact ⟨Value.none, serialize_as_none _ _, deserialize_as_none _⟩
      case dt n' =>
        exact ⟨.str (isoformatZ n'), rfl,
          by rw [deserialize_as_str_datetime]; exact dateutilParse_isoformatZ n'⟩
      case str s2 => exact False.elim hrt
      all_goals exact ⟨_, rfl, by simp [deserialize_as]⟩
    all_goals cases v <;> exact ⟨_, rfl, by simp [deserialize_as]⟩

/-- C2 (corrected): deserializing the serialized form of a `BaseDto`
    instance restores the exact instance for every *round-trippable* value:
    the instance is well typed against its descriptors, its class (and
    every class met recursively) maps each field to a distinct wire name, a
    `None` in a field that is neither required nor nullable only occurs
    where the schema default is itself `None`, and any record serialized
    under a `TaggedUnion` descriptor carries a truthy string discriminator
    that the mapping sends back to its own class.  Without the
    default-`None` proviso the claim is false, see
    `C2_counterexample_default_breaks_roundtrip`: an omitted optional field
    is refilled from the schema default on the way back. -/
theorem C2_roundtrip_for_rt_values (c : DtoClass) (vals : List Value)
    (h : RT (.record c vals) (.dto c)) :
    ∃ w, serialize_as (.record c vals) (.dto c) false = .ok w
      ∧ deserialize_as w (.dto c) = .ok (.record c vals) :=
  rt_roundtrip (sizeOf (Value.record c vals)) _ _ le_rfl h

/-- Concrete instantiation of the corrected C2 round-trip: a two-field
    class with a required string field and an optional float field whose
    default is `None`. -/
theorem C2_roundtrip_for_rt_values_witness :
    RT (.record (DtoClass.mk "P" [("a", .str, .none), ("b", .float, .none)]
          [("a", "A"), ("b", "B")] ["a"] []) [.str "x", .num 7])
        (.dto (DtoClass.mk "P" [("a", .str, .none), ("b", .float, .none)]
          [("a", "A"), ("b", "B")] ["a"] []))
    ∧ ∃ w,
        serialize_as
            (.record (DtoClass.mk "P" [("a", .str, .none), ("b", .float, .none)]
              [("a", "A"), ("b", "B")] ["a"] []) [.str "x", .num 7])
            (.dto (DtoClass.mk "P" [("a", .str, .none), ("b", .float, .none)]
              [("a", "A"), ("b", "B")] ["a"] [])) false = .ok w
        ∧ deserialize_as w
            (.dto (DtoClass.mk "P" [("a", .str, .none), ("b", .float, .none)]
              [("a", "A"), ("b", "B")] ["a"] []))
          = .ok (.record (DtoClass.mk "P"
              [("a", .str, .none), ("b", .float, .none)]
              [("a", "A"), ("b", "B")] ["a"] []) [.str "x", .num 7]) := by
  have hrt : RT (.record (DtoClass.mk "P"
        [("a", .str, .none), ("b", .float, .none)]
        [("a", "A"), ("b", "B")] ["a"] []) [.str "x", .num 7])
      (.dto (DtoClass.mk "P" [("a", .str, .none), ("b", .float, .none)]
        [("a", "A"), ("b", "B")] ["a"] [])) :=
    ⟨rfl, ⟨["A", "B"], rfl, by simp⟩,
      Or.inr ⟨by simp, trivial⟩, Or.inr ⟨by simp, trivial⟩, trivial⟩
  exact ⟨hrt, C2_roundtrip_for_rt_values _ _ hrt⟩
